import Mathlib

/-!
Verification development for the `rxpy_opkit` operator layer.

The Python sources embedded here are
`src/rxpy_opkit/basis/flat_operator_abc_basis.py` (BaseOperator,
SimpleOperator, FilteringOperator, StatefulOperator) and
`src/rxpy_opkit/logging_ops/logging_operators.py` (LoggingOperator,
MarbleLogger, ContextualLogger, RichLoggerOperator, PerformanceLogger,
ConditionalLogger).

Modelling conventions:
* Python strings are modelled as `List Char`.
* Python values handled by the operators are modelled by the inductive
  `PyVal` (integers, strings, lists, tuples, dicts, None); floats are not
  modelled (no claim needs them).
* A Python exception object is a `PyErr` (its type name and message).
* Each notification handler (`on_next`, `on_error`, `on_completed`) is a
  pure function from the operator's mutable state and the incoming
  notification to an `HRes`: the new state, the log records emitted, the
  list of calls made on the downstream observer, and - when the handler
  terminates with an uncaught Python exception - that exception.
  The boolean `obs` argument models whether `self.observer` is bound
  (it is `None` right after construction and is set in `subscribe`);
  dereferencing an unbound observer raises `AttributeError`, modelled as
  `PyExc.attrError`.
* Wall-clock readings (`time.time()`) are inputs: the timed handlers of
  `PerformanceLogger` take the current timestamp `now` as an argument.
  The derived floating point statistics (mean/min/max in milliseconds)
  are not modelled; no claim refers to their values.
-/

/-- A Python exception object: its class name and message. -/
structure PyErr where
  kind : String
  msg : String
deriving DecidableEq, Repr

mutual

/-- Python values flowing through the operators: integers, strings,
lists, tuples, dicts and `None`.  (Floats are not modelled.)  The
element lists are mutually inductive with `PyVal` so that recursion
over values stays structural. -/
inductive PyVal where
  | vInt (n : Int)
  | vStr (s : List Char)
  | vList (xs : PyValList)
  | vTuple (xs : PyValList)
  | vDict (es : PyPairList)
  | vNone

/-- The elements of a Python list or tuple value. -/
inductive PyValList where
  | nil
  | cons (x : PyVal) (xs : PyValList)

/-- The key/value entries of a Python dict value, in insertion order. -/
inductive PyPairList where
  | nil
  | cons (k v : PyVal) (rest : PyPairList)

end

/-- `len` of a list/tuple value's elements. -/
def PyValList.length : PyValList → Nat
  | PyValList.nil => 0
  | PyValList.cons _ xs => xs.length + 1

/-- Python `xs[:n]` on a list/tuple value's elements. -/
def PyValList.take : Nat → PyValList → PyValList
  | 0, _ => PyValList.nil
  | _, PyValList.nil => PyValList.nil
  | n + 1, PyValList.cons x xs => PyValList.cons x (xs.take n)

/-- `len` of a dict value's entries. -/
def PyPairList.length : PyPairList → Nat
  | PyPairList.nil => 0
  | PyPairList.cons _ _ rest => rest.length + 1

/-- Python `list(d.items())[:n]` on a dict value's entries. -/
def PyPairList.take : Nat → PyPairList → PyPairList
  | 0, _ => PyPairList.nil
  | _, PyPairList.nil => PyPairList.nil
  | n + 1, PyPairList.cons k v rest => PyPairList.cons k v (rest.take n)

/-- Build list-value elements from a Lean list. -/
def PyValList.ofList : List PyVal → PyValList
  | [] => PyValList.nil
  | x :: xs => PyValList.cons x (PyValList.ofList xs)

/-- Build dict-value entries from a Lean list of pairs. -/
def PyPairList.ofList : List (PyVal × PyVal) → PyPairList
  | [] => PyPairList.nil
  | (k, v) :: ps => PyPairList.cons k v (PyPairList.ofList ps)

/-- The single-quote character used by Python `repr` of strings. -/
def quoteChar : Char := Char.ofNat 39

/-- Opening brace character of a Python dict display. -/
def lbraceChar : Char := Char.ofNat 123

/-- Closing brace character of a Python dict display. -/
def rbraceChar : Char := Char.ofNat 125

/-- `", ".join` on already rendered pieces. -/
def joinComma (parts : List (List Char)) : List Char :=
  List.intercalate (", ").toList parts

mutual

/-- Python `repr` on modelled values (string contents are assumed to be
free of quotes and escapes, which every value in this file satisfies). -/
def pyRepr : PyVal → List Char
  | PyVal.vInt n => (toString n).toList
  | PyVal.vStr s => quoteChar :: (s ++ [quoteChar])
  | PyVal.vNone => ("None").toList
  | PyVal.vList xs => '[' :: (joinComma (pyReprList xs) ++ [']'])
  | PyVal.vTuple xs =>
      '(' :: (joinComma (pyReprList xs) ++
        (if xs.length = 1 then [','] else []) ++ [')'])
  | PyVal.vDict es => lbraceChar :: (joinComma (pyReprPairs es) ++ [rbraceChar])

/-- `repr` of each element of a list of values. -/
def pyReprList : PyValList → List (List Char)
  | PyValList.nil => []
  | PyValList.cons x xs => pyRepr x :: pyReprList xs

/-- `repr(k) ++ ": " ++ repr(v)` for each dict entry. -/
def pyReprPairs : PyPairList → List (List Char)
  | PyPairList.nil => []
  | PyPairList.cons k v ps => (pyRepr k ++ (": ").toList ++ pyRepr v) :: pyReprPairs ps

end

/-- Python `str`: identity on strings, `repr` on everything else. -/
def pyStr : PyVal → List Char
  | PyVal.vStr s => s
  | v => pyRepr v

/-- Python `type(v).__name__` for modelled values. -/
def pyTypeName : PyVal → List Char
  | PyVal.vInt _ => ("int").toList
  | PyVal.vStr _ => ("str").toList
  | PyVal.vList _ => ("list").toList
  | PyVal.vTuple _ => ("tuple").toList
  | PyVal.vDict _ => ("dict").toList
  | PyVal.vNone => ("NoneType").toList

/-- The three notification kinds a producer delivers to an observer. -/
inductive Event (α ε : Type) where
  | next (v : α)
  | error (e : ε)
  | completed
deriving Repr

/-- Whether an event is a `next` (non-terminal) notification. -/
def Event.is_next : Event α ε → Bool
  | Event.next _ => true
  | _ => false

/-- An uncaught Python exception leaving a handler: either one raised by
a user-supplied function, or the `AttributeError` from dereferencing an
unbound (`None`) observer. -/
inductive PyExc (ε : Type) where
  | fromFn (e : ε)
  | attrError
deriving Repr

/-- Result of running one handler: final state, log records emitted,
calls made on the downstream observer, and the uncaught exception if the
handler did not return normally. -/
structure HRes (σ L β ε : Type) where
  st : σ
  logs : List L
  down : List (Event β ε)
  raised : Option (PyExc ε)

/-- Feed a list of upstream events through a handler triple, threading
the state.  Delivery stops at the first uncaught exception (it would
propagate into the producer's emission loop). -/
def runEvents (sN : σ → α → HRes σ L β ε) (sE : σ → ε → HRes σ L β ε)
    (sC : σ → HRes σ L β ε) (s : σ) : List (Event α ε) → HRes σ L β ε
  | [] => ⟨s, [], [], none⟩
  | ev :: rest =>
    let r := match ev with
      | Event.next v => sN s v
      | Event.error e => sE s e
      | Event.completed => sC s
    match r.raised with
    | some ex => ⟨r.st, r.logs, r.down, some ex⟩
    | none =>
      let rr := runEvents sN sE sC r.st rest
      ⟨rr.st, r.logs ++ rr.logs, r.down ++ rr.down, rr.raised⟩

/-- Timed variant: each upstream event comes with the `time.time()`
reading observed while it is handled. -/
def runTimed (sN : Int → σ → α → HRes σ L β ε) (sE : Int → σ → ε → HRes σ L β ε)
    (sC : Int → σ → HRes σ L β ε) (s : σ) : List (Event α ε × Int) → HRes σ L β ε
  | [] => ⟨s, [], [], none⟩
  | (ev, t) :: rest =>
    let r := match ev with
      | Event.next v => sN t s v
      | Event.error e => sE t s e
      | Event.completed => sC t s
    match r.raised with
    | some ex => ⟨r.st, r.logs, r.down, some ex⟩
    | none =>
      let rr := runTimed sN sE sC r.st rest
      ⟨rr.st, r.logs ++ rr.logs, r.down ++ rr.down, rr.raised⟩

/-! ## Basis module: `flat_operator_abc_basis.py` -/

/-- `BaseOperator.on_error`: forwards the error to the downstream
observer when one is bound (`if self.observer:`); silently drops it
otherwise.  `BaseOperator` keeps no state beyond the observer. -/
def BaseOperator.on_error (obs : Bool) (e : ε) : HRes Unit Empty β ε :=
  ⟨(), [], if obs then [Event.error e] else [], none⟩

/-- `BaseOperator.on_completed`: forwards completion when the observer
is bound; silently drops it otherwise. -/
def BaseOperator.on_completed (obs : Bool) : HRes Unit Empty β ε :=
  ⟨(), [], if obs then [Event.completed] else [], none⟩

/-- `SimpleOperator.on_next`: applies the transformation function and
forwards the result; an exception from the function is caught and sent
downstream as an error notification.  In either branch, the observer is
touched only after the `if self.observer:` check, so nothing escapes. -/
def SimpleOperator.on_next (f : α → Except ε β) (obs : Bool) (v : α) :
    HRes Unit Empty β ε :=
  match f v with
  | Except.ok t => ⟨(), [], if obs then [Event.next t] else [], none⟩
  | Except.error e => ⟨(), [], if obs then [Event.error e] else [], none⟩

/-- `FilteringOperator.on_next`: forwards the value only when the
predicate is true; a predicate exception is caught and sent downstream
as an error notification. -/
def FilteringOperator.on_next (p : α → Except ε Bool) (obs : Bool) (v : α) :
    HRes Unit Empty α ε :=
  match p v with
  | Except.ok b => ⟨(), [], if b && obs then [Event.next v] else [], none⟩
  | Except.error e => ⟨(), [], if obs then [Event.error e] else [], none⟩

/-- `StatefulOperator.on_completed`: forwards completion via
`super().on_completed()` and then invokes `self.reset_state()`. -/
def StatefulOperator.on_completed (reset : σ → σ) (obs : Bool) (s : σ) :
    HRes σ Empty β ε :=
  ⟨reset s, [], if obs then [Event.completed] else [], none⟩

/-- `StatefulOperator.on_error`: forwards the error via
`super().on_error(error)` and then invokes `self.reset_state()`. -/
def StatefulOperator.on_error (reset : σ → σ) (obs : Bool) (s : σ) (e : ε) :
    HRes σ Empty β ε :=
  ⟨reset s, [], if obs then [Event.error e] else [], none⟩

/-- A subscribed `SimpleOperator` pipeline: its own `on_next` plus the
`on_error`/`on_completed` handlers inherited from `BaseOperator`. -/
def SimpleOperator.run (f : α → Except ε β) (evs : List (Event α ε)) :
    HRes Unit Empty β ε :=
  runEvents (fun _ v => SimpleOperator.on_next f true v)
    (fun _ e => BaseOperator.on_error true e)
    (fun _ => BaseOperator.on_completed true) () evs

/-- A subscribed `FilteringOperator` pipeline, handlers as inherited. -/
def FilteringOperator.run (p : α → Except ε Bool) (evs : List (Event α ε)) :
    HRes Unit Empty α ε :=
  runEvents (fun _ v => FilteringOperator.on_next p true v)
    (fun _ e => BaseOperator.on_error true e)
    (fun _ => BaseOperator.on_completed true) () evs

/-! ## Generic facts about the runner -/

theorem runEvents_nil (sN : σ → α → HRes σ L β ε) (sE) (sC) (s : σ) :
    runEvents sN sE sC s [] = ⟨s, [], [], none⟩ := rfl

theorem runEvents_cons_next (sN : σ → α → HRes σ L β ε) (sE) (sC) (s : σ)
    (v : α) (rest : List (Event α ε)) (h : (sN s v).raised = none) :
    runEvents sN sE sC s (Event.next v :: rest) =
      ⟨(runEvents sN sE sC (sN s v).st rest).st,
       (sN s v).logs ++ (runEvents sN sE sC (sN s v).st rest).logs,
       (sN s v).down ++ (runEvents sN sE sC (sN s v).st rest).down,
       (runEvents sN sE sC (sN s v).st rest).raised⟩ := by
  simp only [runEvents, h]

theorem runEvents_cons_error (sN : σ → α → HRes σ L β ε) (sE) (sC) (s : σ)
    (e : ε) (rest : List (Event α ε)) (h : (sE s e).raised = none) :
    runEvents sN sE sC s (Event.error e :: rest) =
      ⟨(runEvents sN sE sC (sE s e).st rest).st,
       (sE s e).logs ++ (runEvents sN sE sC (sE s e).st rest).logs,
       (sE s e).down ++ (runEvents sN sE sC (sE s e).st rest).down,
       (runEvents sN sE sC (sE s e).st rest).raised⟩ := by
  simp only [runEvents, h]

theorem runEvents_cons_completed (sN : σ → α → HRes σ L β ε) (sE) (sC) (s : σ)
    (rest : List (Event α ε)) (h : (sC s).raised = none) :
    runEvents sN sE sC s (Event.completed :: rest) =
      ⟨(runEvents sN sE sC (sC s).st rest).st,
       (sC s).logs ++ (runEvents sN sE sC (sC s).st rest).logs,
       (sC s).down ++ (runEvents sN sE sC (sC s).st rest).down,
       (runEvents sN sE sC (sC s).st rest).raised⟩ := by
  simp only [runEvents, h]

/-- If every handler invoked on the given input forwards exactly the
event it received (and raises nothing), the whole run delivers the
input downstream unchanged. -/
theorem runEvents_down_id (sN : σ → α → HRes σ L α ε) (sE) (sC) (s : σ)
    (input : List (Event α ε))
    (hN : ∀ t v, Event.next v ∈ input →
      (sN t v).down = [Event.next v] ∧ (sN t v).raised = none)
    (hE : ∀ t e, Event.error e ∈ input →
      (sE t e).down = [Event.error e] ∧ (sE t e).raised = none)
    (hC : ∀ t, Event.completed ∈ input →
      (sC t).down = [Event.completed] ∧ (sC t).raised = none) :
    (runEvents sN sE sC s input).down = input := by
  induction input generalizing s with
  | nil => rfl
  | cons ev rest ih =>
    have hmem : ∀ x, x ∈ rest → x ∈ ev :: rest := by
      intro x hx; exact List.mem_cons_of_mem _ hx
    cases ev with
    | next v =>
      have h := hN s v (List.mem_cons_self _ _)
      rw [runEvents_cons_next sN sE sC s v rest h.2]
      simp only [h.1]
      rw [ih _ (fun t u hu => hN t u (hmem _ hu))
        (fun t e he => hE t e (hmem _ he)) (fun t hc => hC t (hmem _ hc))]
      rfl
    | error e =>
      have h := hE s e (List.mem_cons_self _ _)
      rw [runEvents_cons_error sN sE sC s e rest h.2]
      simp only [h.1]
      rw [ih _ (fun t u hu => hN t u (hmem _ hu))
        (fun t e' he => hE t e' (hmem _ he)) (fun t hc => hC t (hmem _ hc))]
      rfl
    | completed =>
      have h := hC s (List.mem_cons_self _ _)
      rw [runEvents_cons_completed sN sE sC s rest h.2]
      simp only [h.1]
      rw [ih _ (fun t u hu => hN t u (hmem _ hu))
        (fun t e' he => hE t e' (hmem _ he)) (fun t hc => hC t (hmem _ hc))]
      rfl

/-! ## Logging operators module: `logging_operators.py` -/

/-- Configuration of `LoggingOperator` (all set in `__init__`, immutable
afterwards).  `pfx` is the `prefix` argument of the source.  The value
formatter may raise (`Except.error`), like any Python callable. -/
structure LoggingOperator where
  pfx : List Char
  log_values : Bool
  log_errors : Bool
  log_completion : Bool
  log_level : List Char
  value_formatter : PyVal → Except PyErr (List Char)

/-- One log record of `LoggingOperator` (the data interpolated into the
message; the literal message template is not re-modelled). -/
inductive BasicLog where
  | val (count : Nat) (formatted : List Char)
  | err (e : PyErr)
  | comp (count : Nat)

/-- `LoggingOperator.on_next`: when value logging is enabled, increments
the count, formats the value and logs it - with no exception handling
around the formatter call - and only then forwards the value.  A
formatter exception therefore escapes before `self.observer.on_next`. -/
def LoggingOperator.on_next (op : LoggingOperator) (obs : Bool) (count : Nat)
    (v : PyVal) : HRes Nat BasicLog PyVal PyErr :=
  if op.log_values then
    match op.value_formatter v with
    | Except.error e => ⟨count + 1, [], [], some (PyExc.fromFn e)⟩
    | Except.ok fv =>
      if obs then ⟨count + 1, [BasicLog.val (count + 1) fv], [Event.next v], none⟩
      else ⟨count + 1, [BasicLog.val (count + 1) fv], [], some PyExc.attrError⟩
  else
    if obs then ⟨count, [], [Event.next v], none⟩
    else ⟨count, [], [], some PyExc.attrError⟩

/-- `LoggingOperator.on_error`: optionally logs, then forwards the error
object itself via `self.observer.on_error(error)` (no observer guard). -/
def LoggingOperator.on_error (op : LoggingOperator) (obs : Bool) (count : Nat)
    (e : PyErr) : HRes Nat BasicLog PyVal PyErr :=
  let lgs := if op.log_errors then [BasicLog.err e] else []
  if obs then ⟨count, lgs, [Event.error e], none⟩
  else ⟨count, lgs, [], some PyExc.attrError⟩

/-- `LoggingOperator.on_completed`: optionally logs the final count,
then forwards completion (no observer guard). -/
def LoggingOperator.on_completed (op : LoggingOperator) (obs : Bool)
    (count : Nat) : HRes Nat BasicLog PyVal PyErr :=
  let lgs := if op.log_completion then [BasicLog.comp count] else []
  if obs then ⟨count, lgs, [Event.completed], none⟩
  else ⟨count, lgs, [], some PyExc.attrError⟩

/-- `LoggingOperator._default_format_value`: dicts are summarised to
their first 5 entries with a `... (<total> items)` tail when larger;
lists/tuples longer than 5 render their first 5 items plus a
`... (<total> items)` tail; everything else is `str(value)` truncated to
`s[:97] + "..."` when longer than 100 characters. -/
def LoggingOperator.default_format_value (v : PyVal) : List Char :=
  match v with
  | PyVal.vDict es =>
    pyStr (PyVal.vDict (es.take 5)) ++
      (if 5 < es.length then
        ("... (").toList ++ (toString es.length).toList ++ (" items)").toList
      else [])
  | PyVal.vList xs =>
    if 5 < xs.length then
      pyStr (PyVal.vList (xs.take 5)) ++ (" ... (").toList ++
        (toString xs.length).toList ++ (" items)").toList
    else
      let s := pyStr (PyVal.vList xs)
      if 100 < s.length then s.take 97 ++ ("...").toList else s
  | PyVal.vTuple xs =>
    if 5 < xs.length then
      pyStr (PyVal.vTuple (xs.take 5)) ++ (" ... (").toList ++
        (toString xs.length).toList ++ (" items)").toList
    else
      let s := pyStr (PyVal.vTuple xs)
      if 100 < s.length then s.take 97 ++ ("...").toList else s
  | u =>
    let s := pyStr u
    if 100 < s.length then s.take 97 ++ ("...").toList else s

/-- A subscribed `LoggingOperator` pipeline (state: the value count). -/
def LoggingOperator.run (op : LoggingOperator) (s : Nat)
    (evs : List (Event PyVal PyErr)) : HRes Nat BasicLog PyVal PyErr :=
  runEvents (op.on_next true) (op.on_error true)
    (op.on_completed true) s evs

/-- One recorded event of `MarbleLogger`'s timeline: `("N", value)`,
`("E", error)` or `("C", None)`. -/
inductive MEntry where
  | n (v : PyVal)
  | e (err : PyErr)
  | c

/-- Configuration of `MarbleLogger`. -/
structure MarbleLogger where
  name : List Char
  width : Nat

/-- The symbol chosen for one timeline event: ints/floats in `[-9, 9]`
render as `str(int(value))` (note: two characters for negatives!),
non-empty strings as their first character uppercased, anything else as
a bullet; errors as `X`, completion as `|`.  Each symbol is a Python
string, exactly as in the source, where it is stored into a slot of the
character list. -/
def marbleSymbol : MEntry → List Char
  | MEntry.n v =>
    match v with
    | PyVal.vInt k => if -9 ≤ k ∧ k ≤ 9 then (toString k).toList else ['•']
    | PyVal.vStr s =>
      match s with
      | [] => ['•']
      | ch :: _ => [ch.toUpper]
    | _ => ['•']
  | MEntry.e _ => ['X']
  | MEntry.c => ['|']

/-- Python `l[-n:]` for `n ≥ 1`: the last `n` elements. -/
def sliceLast (n : Nat) (l : List α) : List α := l.drop (l.length - n)

/-- `MarbleLogger._print_timeline`'s rendered timeline: start from
`list("-" * width)`, write the symbol of the `i`-th of the last `width`
events into slot `i % width`, and join. -/
def MarbleLogger.print_timeline (op : MarbleLogger) (timeline : List MEntry) :
    List Char :=
  let recent := sliceLast op.width timeline
  (recent.enum.foldl (fun cs p => cs.set (p.1 % op.width) (marbleSymbol p.2))
    (List.replicate op.width ['-'])).flatten

/-- One log line of `MarbleLogger`: the rendered timeline and the suffix
(`""`, `ERROR: <kind>` or `COMPLETED`).  The right-justified name prefix
carries no claim-relevant information and is left out of the record. -/
structure MarbleLog where
  line : List Char
  suffix : List Char

/-- `MarbleLogger.on_next`: append `("N", value)`, print, forward. -/
def MarbleLogger.on_next (op : MarbleLogger) (obs : Bool)
    (tl : List MEntry) (v : PyVal) : HRes (List MEntry) MarbleLog PyVal PyErr :=
  let tl2 := tl ++ [MEntry.n v]
  let lgs := [⟨op.print_timeline tl2, []⟩]
  if obs then ⟨tl2, lgs, [Event.next v], none⟩
  else ⟨tl2, lgs, [], some PyExc.attrError⟩

/-- `MarbleLogger.on_error`: append `("E", error)`, print with an
`ERROR: <kind>` suffix, forward the error (no observer guard). -/
def MarbleLogger.on_error (op : MarbleLogger) (obs : Bool)
    (tl : List MEntry) (e : PyErr) : HRes (List MEntry) MarbleLog PyVal PyErr :=
  let tl2 := tl ++ [MEntry.e e]
  let lgs := [⟨op.print_timeline tl2, ("ERROR: ").toList ++ e.kind.toList⟩]
  if obs then ⟨tl2, lgs, [Event.error e], none⟩
  else ⟨tl2, lgs, [], some PyExc.attrError⟩

/-- `MarbleLogger.on_completed`: append `("C", None)`, print with a
`COMPLETED` suffix, forward completion (no observer guard). -/
def MarbleLogger.on_completed (op : MarbleLogger) (obs : Bool)
    (tl : List MEntry) : HRes (List MEntry) MarbleLog PyVal PyErr :=
  let tl2 := tl ++ [MEntry.c]
  let lgs := [⟨op.print_timeline tl2, ("COMPLETED").toList⟩]
  if obs then ⟨tl2, lgs, [Event.completed], none⟩
  else ⟨tl2, lgs, [], some PyExc.attrError⟩

/-- A subscribed `MarbleLogger` pipeline (state: the timeline). -/
def MarbleLogger.run (op : MarbleLogger) (tl : List MEntry)
    (evs : List (Event PyVal PyErr)) : HRes (List MEntry) MarbleLog PyVal PyErr :=
  runEvents (op.on_next true) (op.on_error true) (op.on_completed true) tl evs

/-- Configuration of `ContextualLogger`: its name and the fixed context
mapping bound into the logger (opaque to the claims). -/
structure ContextualLogger where
  name : List Char
  context : List (List Char × PyVal)

/-- One structured log record of `ContextualLogger`.  The elapsed
wall-clock seconds interpolated by the source are a real-time reading
and are not recorded here; no claim refers to them. -/
inductive CtxLog where
  | val (count : Nat) (value_type : List Char) (v : PyVal)
  | err (count : Nat) (error_type : List Char)
  | comp (count : Nat)

/-- `ContextualLogger.on_next`: increments the event count, logs the
value with its type name, forwards the value (no observer guard). -/
def ContextualLogger.on_next (op : ContextualLogger) (obs : Bool)
    (count : Nat) (v : PyVal) : HRes Nat CtxLog PyVal PyErr :=
  let lgs := [CtxLog.val (count + 1) (pyTypeName v) v]
  if obs then ⟨count + 1, lgs, [Event.next v], none⟩
  else ⟨count + 1, lgs, [], some PyExc.attrError⟩

/-- `ContextualLogger.on_error`: logs, then forwards the error. -/
def ContextualLogger.on_error (op : ContextualLogger) (obs : Bool)
    (count : Nat) (e : PyErr) : HRes Nat CtxLog PyVal PyErr :=
  let lgs := [CtxLog.err count e.kind.toList]
  if obs then ⟨count, lgs, [Event.error e], none⟩
  else ⟨count, lgs, [], some PyExc.attrError⟩

/-- `ContextualLogger.on_completed`: logs, then forwards completion. -/
def ContextualLogger.on_completed (op : ContextualLogger) (obs : Bool)
    (count : Nat) : HRes Nat CtxLog PyVal PyErr :=
  let lgs := [CtxLog.comp count]
  if obs then ⟨count, lgs, [Event.completed], none⟩
  else ⟨count, lgs, [], some PyExc.attrError⟩

/-- A subscribed `ContextualLogger` pipeline (state: event count). -/
def ContextualLogger.run (op : ContextualLogger) (count : Nat)
    (evs : List (Event PyVal PyErr)) : HRes Nat CtxLog PyVal PyErr :=
  runEvents (op.on_next true) (op.on_error true) (op.on_completed true) count evs

/-- Configuration of `RichLoggerOperator`. -/
structure RichLoggerOperator where
  name : List Char
  colorize : Bool
  show_type : Bool

/-- One log record of `RichLoggerOperator`, one constructor per
formatting branch of `on_next` plus the error/completion records. -/
inductive RichLog where
  | dictSmall (items : PyPairList)
  | dictLarge (total : Nat) (shown : PyPairList)
  | coll (type_name : List Char) (shown : PyValList) (total : Nat)
  | num (n : Int) (color : List Char)
  | other (v : PyVal)
  | err (e : PyErr)
  | comp (count : Nat)

/-- The `_log_dict` / `_log_collection` / `_log_number` / `_log_default`
dispatch of `RichLoggerOperator.on_next`, as a log record. -/
def RichLoggerOperator.dispatch (v : PyVal) : RichLog :=
  match v with
  | PyVal.vDict es =>
    if es.length ≤ 3 then RichLog.dictSmall es
    else RichLog.dictLarge es.length (es.take 5)
  | PyVal.vList xs => RichLog.coll (pyTypeName (PyVal.vList xs)) (xs.take 5) xs.length
  | PyVal.vTuple xs => RichLog.coll (pyTypeName (PyVal.vTuple xs)) (xs.take 5) xs.length
  | PyVal.vInt n =>
    RichLog.num n
      (if 0 < n then ("green").toList else if n < 0 then ("red").toList
       else ("blue").toList)
  | u => RichLog.other u

/-- `RichLoggerOperator.on_next`: increments the count, logs by the
value's shape, forwards the value (no observer guard). -/
def RichLoggerOperator.on_next (op : RichLoggerOperator) (obs : Bool)
    (count : Nat) (v : PyVal) : HRes Nat RichLog PyVal PyErr :=
  let lgs := [RichLoggerOperator.dispatch v]
  if obs then ⟨count + 1, lgs, [Event.next v], none⟩
  else ⟨count + 1, lgs, [], some PyExc.attrError⟩

/-- `RichLoggerOperator.on_error`: logs, then forwards the error. -/
def RichLoggerOperator.on_error (op : RichLoggerOperator) (obs : Bool)
    (count : Nat) (e : PyErr) : HRes Nat RichLog PyVal PyErr :=
  if obs then ⟨count, [RichLog.err e], [Event.error e], none⟩
  else ⟨count, [RichLog.err e], [], some PyExc.attrError⟩

/-- `RichLoggerOperator.on_completed`: logs a summary with the item
count, then forwards completion. -/
def RichLoggerOperator.on_completed (op : RichLoggerOperator) (obs : Bool)
    (count : Nat) : HRes Nat RichLog PyVal PyErr :=
  if obs then ⟨count, [RichLog.comp count], [Event.completed], none⟩
  else ⟨count, [RichLog.comp count], [], some PyExc.attrError⟩

/-- A subscribed `RichLoggerOperator` pipeline (state: item count). -/
def RichLoggerOperator.run (op : RichLoggerOperator) (count : Nat)
    (evs : List (Event PyVal PyErr)) : HRes Nat RichLog PyVal PyErr :=
  runEvents (op.on_next true) (op.on_error true) (op.on_completed true) count evs

/-- Configuration of `PerformanceLogger`. -/
structure PerformanceLogger where
  name : List Char
  log_interval : Option Nat

/-- Mutable state of `PerformanceLogger`: start/last timestamps, the
inter-arrival interval list and the item count. -/
structure PerfState where
  start_time : Option Int
  last_time : Option Int
  item_times : List Int
  count : Nat
deriving DecidableEq, Repr

/-- The state every accumulator starts from (the `__init__` values). -/
def PerfState.initial : PerfState := ⟨none, none, [], 0⟩

/-- `PerformanceLogger.reset_state`: clears start/last timestamps,
empties the interval list and zeroes the count. -/
def PerformanceLogger.reset_state (_s : PerfState) : PerfState :=
  PerfState.initial

/-- One statistics record of `_log_stats` (status tag, event count,
elapsed time and the interval list; the derived float statistics are
not modelled). -/
structure PerfLog where
  status : List Char
  events : Nat
  total_time : Int
  intervals : List Int

/-- `PerformanceLogger._log_stats`: returns without logging when
`not self.start_time` (unset - or a falsy `0` timestamp) or the count
is zero; otherwise logs one stats record. -/
def PerformanceLogger.log_stats (status : List Char) (now : Int)
    (s : PerfState) : List PerfLog :=
  match s.start_time with
  | none => []
  | some st =>
    if st = 0 ∨ s.count = 0 then []
    else [⟨status, s.count, now - st, s.item_times⟩]

/-- `PerformanceLogger.on_next`: initialises timing on the first item,
otherwise appends the inter-arrival interval; increments the count;
logs `PROGRESS` stats every `log_interval` items when that is set and
truthy; forwards the value (no observer guard). -/
def PerformanceLogger.on_next (op : PerformanceLogger) (obs : Bool)
    (now : Int) (s : PerfState) (v : PyVal) : HRes PerfState PerfLog PyVal PyErr :=
  let s1 : PerfState :=
    match s.start_time with
    | none => ⟨some now, some now, s.item_times, s.count⟩
    | some st =>
      ⟨some st, some now, s.item_times ++ [now - s.last_time.getD 0], s.count⟩
  let s2 : PerfState := ⟨s1.start_time, s1.last_time, s1.item_times, s1.count + 1⟩
  let lgs :=
    match op.log_interval with
    | some k =>
      if k ≠ 0 ∧ s2.count % k = 0 then PerformanceLogger.log_stats ("PROGRESS").toList now s2
      else []
    | none => []
  if obs then ⟨s2, lgs, [Event.next v], none⟩
  else ⟨s2, lgs, [], some PyExc.attrError⟩

/-- `PerformanceLogger.on_error`: logs final `ERROR` stats and forwards
the error.  It overrides `StatefulOperator.on_error` and does NOT call
`reset_state` (nor `super().on_error`). -/
def PerformanceLogger.on_error (op : PerformanceLogger) (obs : Bool)
    (now : Int) (s : PerfState) (e : PyErr) : HRes PerfState PerfLog PyVal PyErr :=
  let lgs := PerformanceLogger.log_stats ("ERROR").toList now s
  if obs then ⟨s, lgs, [Event.error e], none⟩
  else ⟨s, lgs, [], some PyExc.attrError⟩

/-- `PerformanceLogger.on_completed`: logs final `COMPLETED` stats and
forwards completion.  It overrides `StatefulOperator.on_completed` and
does NOT call `reset_state` (nor `super().on_completed`). -/
def PerformanceLogger.on_completed (op : PerformanceLogger) (obs : Bool)
    (now : Int) (s : PerfState) : HRes PerfState PerfLog PyVal PyErr :=
  let lgs := PerformanceLogger.log_stats ("COMPLETED").toList now s
  if obs then ⟨s, lgs, [Event.completed], none⟩
  else ⟨s, lgs, [], some PyExc.attrError⟩

/-- A subscribed `PerformanceLogger` pipeline over timestamped events. -/
def PerformanceLogger.runT (op : PerformanceLogger) (s : PerfState)
    (evs : List (Event PyVal PyErr × Int)) : HRes PerfState PerfLog PyVal PyErr :=
  runTimed (fun t u v => op.on_next true t u v)
    (fun t u e => op.on_error true t u e)
    (fun t u => op.on_completed true t u) s evs

/-- Configuration of `ConditionalLogger`. -/
structure ConditionalLogger where
  name : List Char
  value_predicate : Option (PyVal → Bool)
  error_predicate : Option (PyErr → Bool)
  log_level : List Char
  summarize : Bool

/-- Mutable counters of `ConditionalLogger`. -/
structure CondState where
  total_count : Nat
  logged_count : Nat
deriving DecidableEq, Repr

/-- `self.value_predicate is None or self.value_predicate(value)`. -/
def ConditionalLogger.should_log (op : ConditionalLogger) (v : PyVal) : Bool :=
  match op.value_predicate with
  | none => true
  | some p => p v

/-- One log record of `ConditionalLogger`.  The `ratio` field models the
Python float division `logged_count / total_count` as an exact rational
(the source rounds it only for display, via `
  .1%` formatting). -/
inductive CondLog where
  | val (v : PyVal) (logged : Nat) (total : Nat) (ratio : ℚ)
  | err (e : PyErr)
  | summary (logged : Nat) (total : Nat) (ratio : ℚ)

/-- `ConditionalLogger.on_next`: always increments the total count; if
the value predicate is absent or true, increments the logged count and
logs the value with the running logged/total ratio; forwards the value
in both cases (no observer guard). -/
def ConditionalLogger.on_next (op : ConditionalLogger) (obs : Bool)
    (s : CondState) (v : PyVal) : HRes CondState CondLog PyVal PyErr :=
  let total := s.total_count + 1
  if op.should_log v then
    let logged := s.logged_count + 1
    let lgs := [CondLog.val v logged total ((logged : ℚ) / (total : ℚ))]
    if obs then ⟨⟨total, logged⟩, lgs, [Event.next v], none⟩
    else ⟨⟨total, logged⟩, lgs, [], some PyExc.attrError⟩
  else
    if obs then ⟨⟨total, s.logged_count⟩, [], [Event.next v], none⟩
    else ⟨⟨total, s.logged_count⟩, [], [], some PyExc.attrError⟩

/-- `ConditionalLogger.on_error`: logs when the error predicate is
absent or true; always forwards the error (no observer guard). -/
def ConditionalLogger.on_error (op : ConditionalLogger) (obs : Bool)
    (s : CondState) (e : PyErr) : HRes CondState CondLog PyVal PyErr :=
  let lgs :=
    match op.error_predicate with
    | none => [CondLog.err e]
    | some p => if p e then [CondLog.err e] else []
  if obs then ⟨s, lgs, [Event.error e], none⟩
  else ⟨s, lgs, [], some PyExc.attrError⟩

/-- `ConditionalLogger.on_completed`: when summaries are enabled and at
least one value was seen, logs the final logged/total ratio; always
forwards completion (no observer guard). -/
def ConditionalLogger.on_completed (op : ConditionalLogger) (obs : Bool)
    (s : CondState) : HRes CondState CondLog PyVal PyErr :=
  let lgs :=
    if op.summarize ∧ 0 < s.total_count then
      [CondLog.summary s.logged_count s.total_count
        ((s.logged_count : ℚ) / (s.total_count : ℚ))]
    else []
  if obs then ⟨s, lgs, [Event.completed], none⟩
  else ⟨s, lgs, [], some PyExc.attrError⟩

/-- A subscribed `ConditionalLogger` pipeline (state: the counters). -/
def ConditionalLogger.run (op : ConditionalLogger) (s : CondState)
    (evs : List (Event PyVal PyErr)) : HRes CondState CondLog PyVal PyErr :=
  runEvents (op.on_next true) (op.on_error true) (op.on_completed true) s evs

theorem runTimed_cons_next (sN : Int → σ → α → HRes σ L β ε) (sE) (sC) (s : σ)
    (v : α) (t : Int) (rest : List (Event α ε × Int))
    (h : (sN t s v).raised = none) :
    runTimed sN sE sC s ((Event.next v, t) :: rest) =
      ⟨(runTimed sN sE sC (sN t s v).st rest).st,
       (sN t s v).logs ++ (runTimed sN sE sC (sN t s v).st rest).logs,
       (sN t s v).down ++ (runTimed sN sE sC (sN t s v).st rest).down,
       (runTimed sN sE sC (sN t s v).st rest).raised⟩ := by
  simp only [runTimed, h]

theorem runTimed_cons_error (sN : Int → σ → α → HRes σ L β ε) (sE) (sC) (s : σ)
    (e : ε) (t : Int) (rest : List (Event α ε × Int))
    (h : (sE t s e).raised = none) :
    runTimed sN sE sC s ((Event.error e, t) :: rest) =
      ⟨(runTimed sN sE sC (sE t s e).st rest).st,
       (sE t s e).logs ++ (runTimed sN sE sC (sE t s e).st rest).logs,
       (sE t s e).down ++ (runTimed sN sE sC (sE t s e).st rest).down,
       (runTimed sN sE sC (sE t s e).st rest).raised⟩ := by
  simp only [runTimed, h]

theorem runTimed_cons_completed (sN : Int → σ → α → HRes σ L β ε) (sE) (sC)
    (s : σ) (t : Int) (rest : List (Event α ε × Int))
    (h : (sC t s).raised = none) :
    runTimed sN sE sC s ((Event.completed, t) :: rest) =
      ⟨(runTimed sN sE sC (sC t s).st rest).st,
       (sC t s).logs ++ (runTimed sN sE sC (sC t s).st rest).logs,
       (sC t s).down ++ (runTimed sN sE sC (sC t s).st rest).down,
       (runTimed sN sE sC (sC t s).st rest).raised⟩ := by
  simp only [runTimed, h]

/-- Timed analogue of `runEvents_down_id`. -/
theorem runTimed_down_id (sN : Int → σ → α → HRes σ L α ε) (sE) (sC) (s : σ)
    (input : List (Event α ε × Int))
    (hN : ∀ t u v, (Event.next v, t) ∈ input →
      (sN t u v).down = [Event.next v] ∧ (sN t u v).raised = none)
    (hE : ∀ t u e, (Event.error e, t) ∈ input →
      (sE t u e).down = [Event.error e] ∧ (sE t u e).raised = none)
    (hC : ∀ t u, (Event.completed, t) ∈ input →
      (sC t u).down = [Event.completed] ∧ (sC t u).raised = none) :
    (runTimed sN sE sC s input).down = input.map (fun p => p.1) := by
  induction input generalizing s with
  | nil => rfl
  | cons p rest ih =>
    obtain ⟨ev, t⟩ := p
    have hmem : ∀ x, x ∈ rest → x ∈ (ev, t) :: rest := by
      intro x hx; exact List.mem_cons_of_mem _ hx
    have ihr : ∀ u : σ, (runTimed sN sE sC u rest).down =
        rest.map (fun p => p.1) := by
      intro u
      exact ih u (fun t' w v hv => hN t' w v (hmem _ hv))
        (fun t' w e he => hE t' w e (hmem _ he))
        (fun t' w hc => hC t' w (hmem _ hc))
    cases ev with
    | next v =>
      have h := hN t s v (List.mem_cons_self _ _)
      rw [runTimed_cons_next sN sE sC s v t rest h.2]
      simp only [h.1, ihr, List.map_cons]
      rfl
    | error e =>
      have h := hE t s e (List.mem_cons_self _ _)
      rw [runTimed_cons_error sN sE sC s e t rest h.2]
      simp only [h.1, ihr, List.map_cons]
      rfl
    | completed =>
      have h := hC t s (List.mem_cons_self _ _)
      rw [runTimed_cons_completed sN sE sC s t rest h.2]
      simp only [h.1, ihr, List.map_cons]
      rfl

/-- C1 counterexample: `LoggingOperator` - an operator of the claimed
set, with value logging enabled and a formatter that raises on the
value `1` - over the upstream value sequence `[1]` delivers `[]`
downstream, not the received `[1]`: the formatter exception aborts
`on_next` (lines 60-67 have no try/except) before
`self.observer.on_next(value)` is reached.  This refutes the
identity-passthrough claim as stated, which quantifies over every
operator of the set and so includes configurations with a raising
formatter. -/
theorem c1_counterexample :
    (LoggingOperator.run
      ⟨("RxLog").toList, true, true, true, ("info").toList,
        fun _ => Except.error ⟨"TypeError", "c1"⟩⟩
      0 ([PyVal.vInt 1].map Event.next)).down = [] ∧
    ¬ ((LoggingOperator.run
      ⟨("RxLog").toList, true, true, true, ("info").toList,
        fun _ => Except.error ⟨"TypeError", "c1"⟩⟩
      0 ([PyVal.vInt 1].map Event.next)).down =
        [PyVal.vInt 1].map Event.next) := by
  have hd : (LoggingOperator.run
      ⟨("RxLog").toList, true, true, true, ("info").toList,
        fun _ => Except.error ⟨"TypeError", "c1"⟩⟩
      0 ([PyVal.vInt 1].map Event.next)).down = [] := rfl
  refine ⟨hd, ?_⟩
  rw [hd]
  simp

/-- C1 (amended): for every logging operator in the set
(LoggingOperator, MarbleLogger, ContextualLogger, RichLoggerOperator,
PerformanceLogger, ConditionalLogger) and every upstream sequence of
values, PROVIDED the operator's configured side-effect functions raise
no exception - for `LoggingOperator`, the value formatter returns
normally on every value, built in here by wrapping an arbitrary total
formatter in `Except.ok` - the sequence of values the operator delivers
to its downstream observer equals the sequence received from upstream,
in the same order and with the payload unmodified.  The proviso is
forced: the counterexample shows a raising formatter aborts delivery,
leaving a proper prefix downstream.  `PerformanceLogger` processes each
value at an arbitrary timestamp. -/
theorem c1_identity_passthrough
    (pfx lvl : List Char) (lv le lc : Bool) (fmt : PyVal → List Char)
    (opM : MarbleLogger) (opC : ContextualLogger) (opR : RichLoggerOperator)
    (opP : PerformanceLogger) (opD : ConditionalLogger)
    (sL : Nat) (sM : List MEntry) (sC : Nat) (sR : Nat)
    (sP : PerfState) (sD : CondState)
    (vals : List PyVal) (tvals : List (PyVal × Int)) :
    (LoggingOperator.run ⟨pfx, lv, le, lc, lvl, fun u => Except.ok (fmt u)⟩
        sL (vals.map Event.next)).down = vals.map Event.next ∧
    (opM.run sM (vals.map Event.next)).down = vals.map Event.next ∧
    (opC.run sC (vals.map Event.next)).down = vals.map Event.next ∧
    (opR.run sR (vals.map Event.next)).down = vals.map Event.next ∧
    (opP.runT sP (tvals.map (fun p => (Event.next p.1, p.2)))).down =
      tvals.map (fun p => Event.next p.1) ∧
    (opD.run sD (vals.map Event.next)).down = vals.map Event.next := by
  refine ⟨?_, ?_, ?_, ?_, ?_, ?_⟩
  · simp only [LoggingOperator.run]
    apply runEvents_down_id
    · intro t v _
      cases lv <;> simp [LoggingOperator.on_next]
    · intro t e he; simp at he
    · intro t hc; simp at hc
  · simp only [MarbleLogger.run]
    apply runEvents_down_id
    · intro t v _; simp [MarbleLogger.on_next]
    · intro t e he; simp at he
    · intro t hc; simp at hc
  · simp only [ContextualLogger.run]
    apply runEvents_down_id
    · intro t v _; simp [ContextualLogger.on_next]
    · intro t e he; simp at he
    · intro t hc; simp at hc
  · simp only [RichLoggerOperator.run]
    apply runEvents_down_id
    · intro t v _; simp [RichLoggerOperator.on_next]
    · intro t e he; simp at he
    · intro t hc; simp at hc
  · simp only [PerformanceLogger.runT]
    rw [runTimed_down_id]
    · simp
    · intro t u v _; simp [PerformanceLogger.on_next]
    · intro t u e he; simp at he
    · intro t u hc; simp at hc
  · simp only [ConditionalLogger.run]
    apply runEvents_down_id
    · intro t v _
      by_cases h : opD.should_log v <;> simp [ConditionalLogger.on_next, h]
    · intro t e he; simp at he
    · intro t hc; simp at hc

/-- C2 counterexample: `LoggingOperator` with value logging enabled and
a formatter that raises `TypeError("boom")` on the value `1`: `on_next`
makes no call on the downstream observer (the value is NOT forwarded)
and terminates with the formatter's exception uncaught.  This refutes
the claim that a formatter exception is caught and the original value
still forwarded: there is no try/except in `LoggingOperator.on_next`,
and `self.observer.on_next(value)` is never reached. -/
theorem c2_counterexample :
    (LoggingOperator.on_next
      ⟨("RxLog").toList, true, true, true, ("info").toList,
        fun _ => Except.error ⟨"TypeError", "boom"⟩⟩
      true 0 (PyVal.vInt 1)).down = [] ∧
    (LoggingOperator.on_next
      ⟨("RxLog").toList, true, true, true, ("info").toList,
        fun _ => Except.error ⟨"TypeError", "boom"⟩⟩
      true 0 (PyVal.vInt 1)).raised =
      some (PyExc.fromFn ⟨"TypeError", "boom"⟩) :=
  ⟨rfl, rfl⟩

/-- C2 (amended): when the formatter returns normally - or value logging
is disabled, so the formatter is never called - `LoggingOperator.on_next`
forwards the original value unchanged and raises nothing; but when value
logging is enabled and the formatter raises, the exception escapes
`on_next` uncaught and the value is not forwarded at all. -/
theorem c2_formatter_exception_propagates (op : LoggingOperator) (s : Nat)
    (v : PyVal) :
    (∀ fv, op.value_formatter v = Except.ok fv →
      (op.on_next true s v).down = [Event.next v] ∧
      (op.on_next true s v).raised = none) ∧
    (op.log_values = false →
      (op.on_next true s v).down = [Event.next v] ∧
      (op.on_next true s v).raised = none) ∧
    (∀ e, op.log_values = true → op.value_formatter v = Except.error e →
      (op.on_next true s v).down = [] ∧
      (op.on_next true s v).raised = some (PyExc.fromFn e)) := by
  refine ⟨?_, ?_, ?_⟩
  · intro fv hfv
    cases hlv : op.log_values <;> simp [LoggingOperator.on_next, hlv, hfv]
  · intro hlv
    simp [LoggingOperator.on_next, hlv]
  · intro e hlv hfv
    simp [LoggingOperator.on_next, hlv, hfv]

/-- Witness for C2 (amended): the default-formatter configuration at
value `7` forwards the value and raises nothing. -/
theorem c2_witness :
    (LoggingOperator.on_next
      ⟨("RxLog").toList, true, true, true, ("info").toList,
        fun u => Except.ok (LoggingOperator.default_format_value u)⟩
      true 0 (PyVal.vInt 7)).down = [Event.next (PyVal.vInt 7)] ∧
    (LoggingOperator.on_next
      ⟨("RxLog").toList, true, true, true, ("info").toList,
        fun u => Except.ok (LoggingOperator.default_format_value u)⟩
      true 0 (PyVal.vInt 7)).raised = none :=
  (c2_formatter_exception_propagates
    ⟨("RxLog").toList, true, true, true, ("info").toList,
      fun u => Except.ok (LoggingOperator.default_format_value u)⟩
    0 (PyVal.vInt 7)).1 (("7").toList) (by rfl)

/-- C3: for `SimpleOperator`, an exception raised by the transform
function on a value is caught and converted into exactly one error
notification delivered downstream, and nothing escapes `on_next`
uncaught; likewise for `FilteringOperator` and its predicate. -/
theorem c3_function_exceptions_become_error_notification
    (f : PyVal → Except PyErr PyVal) (p : PyVal → Except PyErr Bool)
    (v w : PyVal) (e1 e2 : PyErr) :
    (f v = Except.error e1 →
      (SimpleOperator.on_next f true v).down = [Event.error e1] ∧
      (SimpleOperator.on_next f true v).raised = none) ∧
    (p w = Except.error e2 →
      (FilteringOperator.on_next p true w).down = [Event.error e2] ∧
      (FilteringOperator.on_next p true w).raised = none) := by
  constructor
  · intro h; simp [SimpleOperator.on_next, h]
  · intro h; simp [FilteringOperator.on_next, h]

/-- Witness for C3: a transform and a predicate that raise
`ValueError("bad")` on the value `3` produce exactly one downstream
error notification carrying that exception, with nothing uncaught. -/
theorem c3_witness :
    (SimpleOperator.on_next
      (fun _ : PyVal => (Except.error ⟨"ValueError", "bad"⟩ : Except PyErr PyVal))
      true (PyVal.vInt 3)).down = [Event.error ⟨"ValueError", "bad"⟩] ∧
    (SimpleOperator.on_next
      (fun _ : PyVal => (Except.error ⟨"ValueError", "bad"⟩ : Except PyErr PyVal))
      true (PyVal.vInt 3)).raised = none :=
  (c3_function_exceptions_become_error_notification
    (fun _ => Except.error ⟨"ValueError", "bad"⟩)
    (fun _ => Except.error ⟨"ValueError", "bad"⟩)
    (PyVal.vInt 3) (PyVal.vInt 3) ⟨"ValueError", "bad"⟩ ⟨"ValueError", "bad"⟩).1 rfl

/-- A well-behaved notification sequence: zero or more `next` events,
optionally followed by a single terminal event, with nothing after it
(the reactive-contract grammar: at most one terminal, none followed by
further notifications). -/
def WB (l : List (Event α ε)) : Prop :=
  (l.dropWhile Event.is_next).length ≤ 1

instance (l : List (Event α ε)) : Decidable (WB l) := by
  unfold WB; infer_instance

theorem WB_nil : WB ([] : List (Event α ε)) := by
  simp [WB]

theorem WB_cons_next (v : α) (l : List (Event α ε)) (h : WB l) :
    WB (Event.next v :: l) := by
  simpa [WB, List.dropWhile_cons, Event.is_next] using h

theorem WB_cons_next_elim (v : α) (l : List (Event α ε))
    (h : WB (Event.next v :: l)) : WB l := by
  simpa [WB, List.dropWhile_cons, Event.is_next] using h

/-- Prepending `next`-only events preserves well-behavedness. -/
theorem WB_append_of_nexts (A B : List (Event α ε))
    (hA : ∀ x ∈ A, Event.is_next x = true) (hB : WB B) : WB (A ++ B) := by
  induction A with
  | nil => simpa using hB
  | cons a A ih =>
    have ha := hA a (List.mem_cons_self _ _)
    have h := ih (fun x hx => hA x (List.mem_cons_of_mem _ hx))
    cases a with
    | next v => exact WB_cons_next _ _ h
    | error e => simp [Event.is_next] at ha
    | completed => simp [Event.is_next] at ha

/-- Generic preservation of the reactive grammar: if every `on_next`
call on the input emits only `next` events downstream and raises
nothing, and the terminal handlers emit exactly the terminal they
received, then a well-behaved upstream yields a well-behaved
downstream. -/
theorem runEvents_wb (sN : σ → α → HRes σ L β ε) (sE) (sC) (s0 : σ)
    (input : List (Event α ε))
    (hN : ∀ s v, Event.next v ∈ input →
      (∀ x ∈ (sN s v).down, Event.is_next x = true) ∧ (sN s v).raised = none)
    (hE : ∀ s e, Event.error e ∈ input →
      (sE s e).down = [Event.error e] ∧ (sE s e).raised = none)
    (hC : ∀ s, Event.completed ∈ input →
      (sC s).down = [Event.completed] ∧ (sC s).raised = none)
    (hwb : WB input) : WB (runEvents sN sE sC s0 input).down := by
  induction input generalizing s0 with
  | nil => exact WB_nil
  | cons ev rest ih =>
    have hmem : ∀ x, x ∈ rest → x ∈ ev :: rest := by
      intro x hx; exact List.mem_cons_of_mem _ hx
    cases ev with
    | next v =>
      have h := hN s0 v (List.mem_cons_self _ _)
      rw [runEvents_cons_next sN sE sC s0 v rest h.2]
      exact WB_append_of_nexts _ _ h.1
        (ih (sN s0 v).st (fun s u hu => hN s u (hmem _ hu))
          (fun s e he => hE s e (hmem _ he)) (fun s hc => hC s (hmem _ hc))
          (WB_cons_next_elim v rest hwb))
    | error e =>
      have hrest : rest = [] := by
        have : (List.dropWhile Event.is_next (Event.error e :: rest)).length ≤ 1 := hwb
        simp [List.dropWhile_cons, Event.is_next] at this
        exact this
      subst hrest
      have h := hE s0 e (List.mem_cons_self _ _)
      rw [runEvents_cons_error sN sE sC s0 e [] h.2]
      simp [h.1, runEvents, WB, List.dropWhile_cons, Event.is_next]
    | completed =>
      have hrest : rest = [] := by
        have : (List.dropWhile Event.is_next (Event.completed :: rest)).length ≤ 1 := hwb
        simp [List.dropWhile_cons, Event.is_next] at this
        exact this
      subst hrest
      have h := hC s0 (List.mem_cons_self _ _)
      rw [runEvents_cons_completed sN sE sC s0 [] h.2]
      simp [h.1, runEvents, WB, List.dropWhile_cons, Event.is_next]

/-- Timed analogue of `runEvents_wb`. -/
theorem runTimed_wb (sN : Int → σ → α → HRes σ L β ε) (sE) (sC) (s0 : σ)
    (input : List (Event α ε × Int))
    (hN : ∀ t s v, (Event.next v, t) ∈ input →
      (∀ x ∈ (sN t s v).down, Event.is_next x = true) ∧ (sN t s v).raised = none)
    (hE : ∀ t s e, (Event.error e, t) ∈ input →
      (sE t s e).down = [Event.error e] ∧ (sE t s e).raised = none)
    (hC : ∀ t s, (Event.completed, t) ∈ input →
      (sC t s).down = [Event.completed] ∧ (sC t s).raised = none)
    (hwb : WB (input.map (fun p => p.1))) :
    WB (runTimed sN sE sC s0 input).down := by
  induction input generalizing s0 with
  | nil => exact WB_nil
  | cons p rest ih =>
    obtain ⟨ev, t⟩ := p
    have hmem : ∀ x, x ∈ rest → x ∈ (ev, t) :: rest := by
      intro x hx; exact List.mem_cons_of_mem _ hx
    cases ev with
    | next v =>
      have h := hN t s0 v (List.mem_cons_self _ _)
      rw [runTimed_cons_next sN sE sC s0 v t rest h.2]
      exact WB_append_of_nexts _ _ h.1
        (ih (sN t s0 v).st (fun t' s u hu => hN t' s u (hmem _ hu))
          (fun t' s e he => hE t' s e (hmem _ he))
          (fun t' s hc => hC t' s (hmem _ hc))
          (WB_cons_next_elim v _ hwb))
    | error e =>
      have hrest : rest = [] := by
        have h1 : (List.dropWhile Event.is_next
            (Event.error e :: rest.map (fun p => p.1))).length ≤ 1 := hwb
        simp [List.dropWhile_cons, Event.is_next] at h1
        exact h1
      subst hrest
      have h := hE t s0 e (List.mem_cons_self _ _)
      rw [runTimed_cons_error sN sE sC s0 e t [] h.2]
      simp [h.1, runTimed, WB, List.dropWhile_cons, Event.is_next]
    | completed =>
      have hrest : rest = [] := by
        have h1 : (List.dropWhile Event.is_next
            (Event.completed :: rest.map (fun p => p.1))).length ≤ 1 := hwb
        simp [List.dropWhile_cons, Event.is_next] at h1
        exact h1
      subst hrest
      have h := hC t s0 (List.mem_cons_self _ _)
      rw [runTimed_cons_completed sN sE sC s0 t [] h.2]
      simp [h.1, runTimed, WB, List.dropWhile_cons, Event.is_next]

/-- The eight downstream sequences produced by the framework's concrete
operators from one well-behaved upstream, all claimed well-behaved
(`SimpleOperator` and `FilteringOperator` with non-raising functions,
`LoggingOperator` with a non-raising formatter). -/
def C4Downstreams (input : List (Event PyVal PyErr))
    (inputT : List (Event PyVal PyErr × Int))
    (f : PyVal → PyVal) (p : PyVal → Bool)
    (pfx lvl : List Char) (lv le lc : Bool) (fmt : PyVal → List Char)
    (opM : MarbleLogger) (opC : ContextualLogger) (opR : RichLoggerOperator)
    (opP : PerformanceLogger) (opD : ConditionalLogger)
    (sL : Nat) (sM : List MEntry) (sC : Nat) (sR : Nat)
    (sP : PerfState) (sD : CondState) : Prop :=
  WB (SimpleOperator.run (fun v => Except.ok (f v)) input).down ∧
  WB (FilteringOperator.run (fun v => Except.ok (p v)) input).down ∧
  WB (LoggingOperator.run ⟨pfx, lv, le, lc, lvl, fun u => Except.ok (fmt u)⟩
      sL input).down ∧
  WB (opM.run sM input).down ∧
  WB (opC.run sC input).down ∧
  WB (opR.run sR input).down ∧
  WB (opP.runT sP inputT).down ∧
  WB (opD.run sD input).down

/-- C4 counterexample: `SimpleOperator` whose transform raises on the
value `1`, fed the well-behaved upstream
`[next 1, next 2, completed]`, delivers
`[error, next 2, completed]` downstream: an error terminal followed by
further notifications and a second terminal.  This refutes the claim
that at most one terminal is ever delivered downstream and that nothing
follows it: after converting the exception to a downstream error the
operator neither disposes the upstream nor stops forwarding. -/
theorem c4_counterexample :
    WB [Event.next (PyVal.vInt 1), Event.next (PyVal.vInt 2),
        (Event.completed : Event PyVal PyErr)] ∧
    ¬ WB (SimpleOperator.run
        (fun v => match v with
          | PyVal.vInt 1 => Except.error (⟨"ValueError", "boom"⟩ : PyErr)
          | u => Except.ok u)
        [Event.next (PyVal.vInt 1), Event.next (PyVal.vInt 2),
          Event.completed]).down := by
  constructor <;> decide

/-- C4 (amended): for every operator in the framework over a
well-behaved upstream, PROVIDED the operator's configured functions
(transform, predicate, value formatter) raise no exception on the
processed values, at most one terminal notification is delivered to the
downstream observer and no notification of any kind follows it.  (The
proviso is forced: a converted mid-stream exception adds an early error
terminal, as the counterexample shows.) -/
theorem c4_single_terminal_downstream
    (input : List (Event PyVal PyErr))
    (inputT : List (Event PyVal PyErr × Int))
    (f : PyVal → PyVal) (p : PyVal → Bool)
    (pfx lvl : List Char) (lv le lc : Bool) (fmt : PyVal → List Char)
    (opM : MarbleLogger) (opC : ContextualLogger) (opR : RichLoggerOperator)
    (opP : PerformanceLogger) (opD : ConditionalLogger)
    (sL : Nat) (sM : List MEntry) (sC : Nat) (sR : Nat)
    (sP : PerfState) (sD : CondState)
    (hwb : WB input) (hwbT : WB (inputT.map (fun q => q.1))) :
    C4Downstreams input inputT f p pfx lvl lv le lc fmt
      opM opC opR opP opD sL sM sC sR sP sD := by
  refine ⟨?_, ?_, ?_, ?_, ?_, ?_, ?_, ?_⟩
  · apply runEvents_wb _ _ _ _ _ _ _ _ hwb
    · intro s v _
      simp [SimpleOperator.on_next, Event.is_next]
    · intro s e _
      simp [BaseOperator.on_error]
    · intro s _
      simp [BaseOperator.on_completed]
  · apply runEvents_wb _ _ _ _ _ _ _ _ hwb
    · intro s v _
      by_cases h : p v <;> simp [FilteringOperator.on_next, h, Event.is_next]
    · intro s e _
      simp [BaseOperator.on_error]
    · intro s _
      simp [BaseOperator.on_completed]
  · apply runEvents_wb _ _ _ _ _ _ _ _ hwb
    · intro s v _
      cases lv <;> simp [LoggingOperator.on_next, Event.is_next]
    · intro s e _
      cases hle : le <;>
        simp [LoggingOperator.on_error, hle]
    · intro s _
      cases hlc : lc <;>
        simp [LoggingOperator.on_completed, hlc]
  · apply runEvents_wb _ _ _ _ _ _ _ _ hwb
    · intro s v _
      simp [MarbleLogger.on_next, Event.is_next]
    · intro s e _
      simp [MarbleLogger.on_error]
    · intro s _
      simp [MarbleLogger.on_completed]
  · apply runEvents_wb _ _ _ _ _ _ _ _ hwb
    · intro s v _
      simp [ContextualLogger.on_next, Event.is_next]
    · intro s e _
      simp [ContextualLogger.on_error]
    · intro s _
      simp [ContextualLogger.on_completed]
  · apply runEvents_wb _ _ _ _ _ _ _ _ hwb
    · intro s v _
      simp [RichLoggerOperator.on_next, Event.is_next]
    · intro s e _
      simp [RichLoggerOperator.on_error]
    · intro s _
      simp [RichLoggerOperator.on_completed]
  · apply runTimed_wb _ _ _ _ _ _ _ _ hwbT
    · intro t s v _
      simp [PerformanceLogger.on_next, Event.is_next]
    · intro t s e _
      simp [PerformanceLogger.on_error]
    · intro t s _
      simp [PerformanceLogger.on_completed]
  · apply runEvents_wb _ _ _ _ _ _ _ _ hwb
    · intro s v _
      by_cases h : opD.should_log v <;>
        simp [ConditionalLogger.on_next, h, Event.is_next]
    · intro s e _
      cases hep : opD.error_predicate <;>
        simp [ConditionalLogger.on_error, hep]
    · intro s _
      by_cases h : opD.summarize ∧ 0 < s.total_count <;>
        simp [ConditionalLogger.on_completed, h]

/-- Witness for C4 (amended): a concrete well-behaved upstream
`[next 1, completed]` through concrete instances of all eight
operators yields well-behaved downstreams. -/
theorem c4_witness :
    WB [Event.next (PyVal.vInt 1), (Event.completed : Event PyVal PyErr)] ∧
    WB (([(Event.next (PyVal.vInt 1), (10 : Int)), (Event.completed, 20)] :
        List (Event PyVal PyErr × Int)).map (fun q => q.1)) ∧
    C4Downstreams [Event.next (PyVal.vInt 1), Event.completed]
      [(Event.next (PyVal.vInt 1), 10), (Event.completed, 20)]
      (fun v => v) (fun _ => true)
      ("RxLog").toList ("info").toList true true true
      (fun u => LoggingOperator.default_format_value u)
      ⟨("m").toList, 3⟩ ⟨("c").toList, []⟩ ⟨("r").toList, true, true⟩
      ⟨("p").toList, none⟩ ⟨("d").toList, none, none, ("info").toList, true⟩
      0 [] 0 0 PerfState.initial ⟨0, 0⟩ :=
  ⟨by decide, by decide,
    c4_single_terminal_downstream _ _ _ _ _ _ _ _ _ _ _ _ _ _ _ _ _ _ _ _ _
      (by decide) (by decide)⟩

/-- C5: every operator's `on_error`, invoked with a bound downstream
observer, delivers exactly one error notification downstream carrying
the original error object unchanged (hence its kind and message), and
raises nothing: `BaseOperator`'s default (inherited by `SimpleOperator`
and `FilteringOperator`), `StatefulOperator`'s default, and all six
logging operators.  No operator swallows an upstream error. -/
theorem c5_upstream_error_forwarded_unchanged
    (e : PyErr) (σg : Type) (reset : σg → σg) (sg : σg)
    (opL : LoggingOperator) (opM : MarbleLogger) (opC : ContextualLogger)
    (opR : RichLoggerOperator) (opP : PerformanceLogger)
    (opD : ConditionalLogger)
    (sL : Nat) (sM : List MEntry) (sC : Nat) (sR : Nat)
    (sP : PerfState) (sD : CondState) (now : Int) :
    ((BaseOperator.on_error true e : HRes Unit Empty PyVal PyErr).down =
        [Event.error e] ∧
      (BaseOperator.on_error true e : HRes Unit Empty PyVal PyErr).raised =
        none) ∧
    ((StatefulOperator.on_error reset true sg e : HRes σg Empty PyVal PyErr).down =
        [Event.error e] ∧
      (StatefulOperator.on_error reset true sg e :
        HRes σg Empty PyVal PyErr).raised = none) ∧
    ((opL.on_error true sL e).down = [Event.error e] ∧
      (opL.on_error true sL e).raised = none) ∧
    ((opM.on_error true sM e).down = [Event.error e] ∧
      (opM.on_error true sM e).raised = none) ∧
    ((opC.on_error true sC e).down = [Event.error e] ∧
      (opC.on_error true sC e).raised = none) ∧
    ((opR.on_error true sR e).down = [Event.error e] ∧
      (opR.on_error true sR e).raised = none) ∧
    ((opP.on_error true now sP e).down = [Event.error e] ∧
      (opP.on_error true now sP e).raised = none) ∧
    ((opD.on_error true sD e).down = [Event.error e] ∧
      (opD.on_error true sD e).raised = none) := by
  refine ⟨?_, ?_, ?_, ?_, ?_, ?_, ?_, ?_⟩
  · simp [BaseOperator.on_error]
  · simp [StatefulOperator.on_error]
  · cases h : opL.log_errors <;> simp [LoggingOperator.on_error, h]
  · simp [MarbleLogger.on_error]
  · simp [ContextualLogger.on_error]
  · simp [RichLoggerOperator.on_error]
  · simp [PerformanceLogger.on_error]
  · cases h : opD.error_predicate <;> simp [ConditionalLogger.on_error, h]

theorem set_take_succ (cs : List γ) (k : Nat) (x : γ) (h : k < cs.length) :
    (cs.set k x).take (k + 1) = cs.take k ++ [x] := by
  rw [List.set_eq_take_cons_drop x h, List.take_append_eq_append_take]
  have h1 : (cs.take k).length = k := by
    simp [List.length_take]; omega
  simp [h1]

theorem set_drop_of_lt (cs : List γ) (k m : Nat) (x : γ) (hk : k < cs.length)
    (hm : k < m) : (cs.set k x).drop m = cs.drop m := by
  rw [List.set_eq_take_cons_drop x hk, List.drop_append_eq_append_drop]
  have h1 : (cs.take k).length = k := by
    simp [List.length_take]; omega
  have h2 : (cs.take k).drop m = [] := by
    apply List.drop_eq_nil_of_le
    omega
  have h3 : m - (cs.take k).length = (m - k - 1) + 1 := by
    rw [h1]; omega
  rw [h2, h3, List.nil_append, List.drop_succ_cons, List.drop_drop]
  congr 1
  omega

/-- Closed form of the symbol-placement loop of `_print_timeline`: when
the window starting offset `k` plus the window length fits inside the
width, the loop overwrites slots `k ..< k + length` with the events'
symbols in order and leaves the rest of the slots unchanged. -/
theorem marble_place_eq (W : Nat) (l : List MEntry) (k : Nat)
    (cs : List (List Char)) (hcs : cs.length = W) (hk : k + l.length ≤ W) :
    (List.enumFrom k l).foldl
        (fun c p => c.set (p.1 % W) (marbleSymbol p.2)) cs =
      cs.take k ++ l.map marbleSymbol ++ cs.drop (k + l.length) := by
  induction l generalizing k cs with
  | nil => simp
  | cons e l ih =>
    have hkW : k < W := by
      simp at hk; omega
    have hkcs : k < cs.length := by omega
    have hstep : List.enumFrom k (e :: l) = (k, e) :: List.enumFrom (k + 1) l := rfl
    rw [hstep, List.foldl_cons]
    have hset : cs.set (k % W) (marbleSymbol e) = cs.set k (marbleSymbol e) := by
      rw [Nat.mod_eq_of_lt hkW]
    simp only [hset]
    rw [ih (k + 1) (cs.set k (marbleSymbol e)) (by simp [hcs])
      (by simp at hk ⊢; omega)]
    rw [set_take_succ cs k (marbleSymbol e) hkcs,
      set_drop_of_lt cs k (k + 1 + l.length) (marbleSymbol e) hkcs (by omega)]
    have harith : k + 1 + l.length = k + (e :: l).length := by
      simp; omega
    rw [harith]
    simp [List.append_assoc]

/-- The flattening of single-character chunks has one character per
chunk. -/
theorem flatten_singletons_length (chunks : List (List Char))
    (h : ∀ c ∈ chunks, c.length = 1) : chunks.flatten.length = chunks.length := by
  induction chunks with
  | nil => rfl
  | cons c cs ih =>
    rw [List.flatten_cons, List.length_append, List.length_cons,
      h c (List.mem_cons_self _ _), ih (fun d hd => h d (List.mem_cons_of_mem _ hd))]
    omega

/-- C6 counterexample: `MarbleLogger` with width `W = 2` after the
`K = 3` events `next 5, next (-3), next 4` renders the timeline
`"-34"`: its length is 3, not `W = 2` (the symbol of `-3` is the
two-character string `"-3"`), and the character at position
`(K-1) mod W = 0` is `'-'`, which is not the most recent event's symbol
`'4'` (the code indexes the window relatively, so the newest symbol
sits at the right edge, not at `(K-1) mod W`).  Both conjuncts of the
claim fail at this input. -/
theorem c6_counterexample :
    ¬ (((MarbleLogger.mk ("s").toList 2).print_timeline
        [MEntry.n (PyVal.vInt 5), MEntry.n (PyVal.vInt (-3)),
          MEntry.n (PyVal.vInt 4)]).length = 2 ∧
      ((MarbleLogger.mk ("s").toList 2).print_timeline
        [MEntry.n (PyVal.vInt 5), MEntry.n (PyVal.vInt (-3)),
          MEntry.n (PyVal.vInt 4)])[0]? = some '4') := by
  decide

/-- C6 (amended): for `MarbleLogger` with width `W ≥ 1`, after
`K ≥ W` events the last of which is `lastE`, IF every event in the
visible window (the last `W` events) renders as a single-character
symbol (negative integers in `[-9, -1]` render as two characters and
break this), then the rendered timeline has exactly `W` characters
before any suffix and the symbol of the most recent event occupies the
final position `W - 1` (not position `(K-1) mod W`: the code places the
window's `i`-th event at slot `i % W = i`). -/
theorem c6_marble_window_rendering (name : List Char) (W : Nat)
    (pre : List MEntry) (lastE : MEntry)
    (hW : 1 ≤ W) (hK : W ≤ pre.length + 1)
    (h1 : ∀ ev ∈ sliceLast W (pre ++ [lastE]), (marbleSymbol ev).length = 1) :
    ((MarbleLogger.mk name W).print_timeline (pre ++ [lastE])).length = W ∧
    ((MarbleLogger.mk name W).print_timeline (pre ++ [lastE])).drop (W - 1) =
      marbleSymbol lastE := by
  have hlen : (pre ++ [lastE]).length = pre.length + 1 := by simp
  have hrlen : (sliceLast W (pre ++ [lastE])).length = W := by
    simp only [sliceLast, List.length_drop, hlen]
    omega
  have hclosed : (MarbleLogger.mk name W).print_timeline (pre ++ [lastE]) =
      ((sliceLast W (pre ++ [lastE])).map marbleSymbol).flatten := by
    show ((List.enumFrom 0 (sliceLast W (pre ++ [lastE]))).foldl
        (fun c p => c.set (p.1 % W) (marbleSymbol p.2))
        (List.replicate W ['-'])).flatten = _
    rw [marble_place_eq W (sliceLast W (pre ++ [lastE])) 0
      (List.replicate W ['-']) (by simp) (by rw [hrlen]; omega)]
    rw [hrlen]
    simp [List.drop_replicate]
  have hones : ∀ c ∈ (sliceLast W (pre ++ [lastE])).map marbleSymbol,
      c.length = 1 := by
    intro c hc
    obtain ⟨ev, hev, rfl⟩ := List.mem_map.mp hc
    exact h1 ev hev
  constructor
  · rw [hclosed, flatten_singletons_length _ hones, List.length_map, hrlen]
  · have hsplit : sliceLast W (pre ++ [lastE]) =
        pre.drop (pre.length + 1 - W) ++ [lastE] := by
      simp only [sliceLast, hlen, List.drop_append_eq_append_drop]
      have : pre.length + 1 - W - pre.length = 0 := by omega
      rw [this]
      rfl
    have hwinlen : (pre.drop (pre.length + 1 - W)).length = W - 1 := by
      rw [List.length_drop]; omega
    rw [hclosed, hsplit, List.map_append, List.flatten_append]
    have hflatlen : ((pre.drop (pre.length + 1 - W)).map marbleSymbol).flatten.length
        = W - 1 := by
      rw [flatten_singletons_length, List.length_map, hwinlen]
      intro c hc
      apply hones
      rw [hsplit, List.map_append]
      exact List.mem_append_left _ hc
    have := List.drop_left (((pre.drop (pre.length + 1 - W)).map marbleSymbol).flatten)
      (([lastE].map marbleSymbol).flatten)
    rw [hflatlen] at this
    rw [this]
    simp

/-- Witness for C6 (amended): width 3 after the four events
`next 1, next 2, next 3, next 4`: the rendered window is `"234"`,
three characters wide, ending with the newest symbol `'4'`. -/
theorem c6_witness :
    (1 ≤ 3 ∧ 3 ≤ [MEntry.n (PyVal.vInt 1), MEntry.n (PyVal.vInt 2),
        MEntry.n (PyVal.vInt 3)].length + 1 ∧
      ∀ ev ∈ sliceLast 3 ([MEntry.n (PyVal.vInt 1), MEntry.n (PyVal.vInt 2),
        MEntry.n (PyVal.vInt 3)] ++ [MEntry.n (PyVal.vInt 4)]),
        (marbleSymbol ev).length = 1) ∧
    (((MarbleLogger.mk ("s").toList 3).print_timeline
        ([MEntry.n (PyVal.vInt 1), MEntry.n (PyVal.vInt 2),
          MEntry.n (PyVal.vInt 3)] ++ [MEntry.n (PyVal.vInt 4)])).length = 3 ∧
      ((MarbleLogger.mk ("s").toList 3).print_timeline
        ([MEntry.n (PyVal.vInt 1), MEntry.n (PyVal.vInt 2),
          MEntry.n (PyVal.vInt 3)] ++ [MEntry.n (PyVal.vInt 4)])).drop 2 =
        marbleSymbol (MEntry.n (PyVal.vInt 4))) :=
  ⟨⟨by decide, by decide, by decide⟩,
    c6_marble_window_rendering (("s").toList) 3
      [MEntry.n (PyVal.vInt 1), MEntry.n (PyVal.vInt 2), MEntry.n (PyVal.vInt 3)]
      (MEntry.n (PyVal.vInt 4)) (by decide) (by decide) (by decide)⟩

/-- `isinstance(value, dict)`. -/
def isMapping : PyVal → Bool
  | PyVal.vDict _ => true
  | _ => false

/-- `isinstance(value, (list, tuple)) and len(value) > 5`. -/
def isSeqOver5 : PyVal → Bool
  | PyVal.vList xs => if 5 < xs.length then true else false
  | PyVal.vTuple xs => if 5 < xs.length then true else false
  | _ => false

theorem PyPairList.take_length : ∀ (n : Nat) (es : PyPairList),
    (PyPairList.take n es).length = min n es.length
  | 0, es => by cases es <;> simp [PyPairList.take, PyPairList.length]
  | n + 1, PyPairList.nil => by simp [PyPairList.take, PyPairList.length]
  | n + 1, PyPairList.cons k v rest => by
    simp [PyPairList.take, PyPairList.length, PyPairList.take_length n rest]
    omega

theorem PyValList.take_len : ∀ (n : Nat) (xs : PyValList),
    (PyValList.take n xs).length = min n xs.length
  | 0, xs => by cases xs <;> simp [PyValList.take, PyValList.length]
  | n + 1, PyValList.nil => by simp [PyValList.take, PyValList.length]
  | n + 1, PyValList.cons x rest => by
    simp [PyValList.take, PyValList.length, PyValList.take_len n rest]
    omega

/-- The `s[:97] + "..." if len(s) > 100 else s` tail of the default
formatter: at most 100 characters, and exactly 100 ending in `...`
when the input exceeds 100 characters. -/
theorem truncate_tail_spec (s : List Char) :
    (if 100 < s.length then s.take 97 ++ ("...").toList else s).length ≤ 100 ∧
    (100 < s.length →
      (if 100 < s.length then s.take 97 ++ ("...").toList else s).length = 100 ∧
      (if 100 < s.length then s.take 97 ++ ("...").toList else s).drop 97 =
        ("...").toList) := by
  by_cases h : 100 < s.length
  · have htake : (s.take 97).length = 97 := by
      simp [List.length_take]; omega
    refine ⟨?_, fun _ => ⟨?_, ?_⟩⟩
    · simp [h, List.length_append, htake]
    · simp [h, List.length_append, htake]
    · rw [if_pos h]
      have := List.drop_left (s.take 97) (("...").toList)
      rw [htake] at this
      exact this
  · refine ⟨?_, fun hc => absurd hc h⟩
    simp [h]
    omega

/-- The 6-entry dict (with 20-character string values) used to refute
C7 as stated. -/
def c7Entries : PyPairList := PyPairList.ofList
  [(PyVal.vStr ("k0").toList, PyVal.vStr ("aaaaaaaaaaaaaaaaaaaa").toList),
   (PyVal.vStr ("k1").toList, PyVal.vStr ("bbbbbbbbbbbbbbbbbbbb").toList),
   (PyVal.vStr ("k2").toList, PyVal.vStr ("cccccccccccccccccccc").toList),
   (PyVal.vStr ("k3").toList, PyVal.vStr ("dddddddddddddddddddd").toList),
   (PyVal.vStr ("k4").toList, PyVal.vStr ("eeeeeeeeeeeeeeeeeeee").toList),
   (PyVal.vStr ("k5").toList, PyVal.vStr ("ffffffffffffffffffff").toList)]

set_option maxRecDepth 20000 in
/-- C7 counterexample: on the 6-entry dict `c7Entries` whose string
representation has 180 characters, the default formatter returns 163
characters - more than 100, refuting "at most 100 characters for any
value whose string representation exceeds 100" (the dict branch never
truncates) - and its suffix reads `... (6 items)`: it notes the TOTAL
entry count 6, not the omitted entry count 1, refuting "a suffix noting
the omitted entry count". -/
theorem c7_counterexample :
    100 < (pyStr (PyVal.vDict c7Entries)).length ∧
    100 < (LoggingOperator.default_format_value (PyVal.vDict c7Entries)).length ∧
    LoggingOperator.default_format_value (PyVal.vDict c7Entries) =
      pyStr (PyVal.vDict (c7Entries.take 5)) ++ ("... (6 items)").toList := by
  refine ⟨by decide, by decide, by decide⟩

/-- C7 (amended): `LoggingOperator`'s default value formatter returns
at most 100 characters - exactly 100 ending in `...` when `str(value)`
exceeds 100 characters - for every value handled by the generic branch
(neither a mapping nor a sequence of more than 5 entries); a mapping
with more than 5 entries is rendered as the `str` of its first 5
entries followed by a suffix noting the TOTAL entry count (with no
100-character truncation), and a sequence with more than 5 entries as
the `str` of its first 5 elements followed by the same total-count
suffix. -/
theorem c7_default_formatter (v : PyVal) :
    (isMapping v = false → isSeqOver5 v = false →
      (LoggingOperator.default_format_value v).length ≤ 100 ∧
      (100 < (pyStr v).length →
        (LoggingOperator.default_format_value v).length = 100 ∧
        (LoggingOperator.default_format_value v).drop 97 = ("...").toList)) ∧
    (∀ es, v = PyVal.vDict es → 5 < es.length →
      LoggingOperator.default_format_value v =
        pyStr (PyVal.vDict (es.take 5)) ++
          ("... (").toList ++ (toString es.length).toList ++ (" items)").toList ∧
      (es.take 5).length = 5) ∧
    (∀ xs, v = PyVal.vList xs → 5 < xs.length →
      LoggingOperator.default_format_value v =
        pyStr (PyVal.vList (xs.take 5)) ++
          (" ... (").toList ++ (toString xs.length).toList ++ (" items)").toList ∧
      (xs.take 5).length = 5) ∧
    (∀ xs, v = PyVal.vTuple xs → 5 < xs.length →
      LoggingOperator.default_format_value v =
        pyStr (PyVal.vTuple (xs.take 5)) ++
          (" ... (").toList ++ (toString xs.length).toList ++ (" items)").toList ∧
      (xs.take 5).length = 5) := by
  refine ⟨?_, ?_, ?_, ?_⟩
  · intro hmap hseq
    cases v with
    | vDict es => simp [isMapping] at hmap
    | vList xs =>
      have hlen : ¬ (5 < xs.length) := by
        by_contra hc
        simp [isSeqOver5, hc] at hseq
      simpa [LoggingOperator.default_format_value, hlen, pyStr]
        using truncate_tail_spec (pyStr (PyVal.vList xs))
    | vTuple xs =>
      have hlen : ¬ (5 < xs.length) := by
        by_contra hc
        simp [isSeqOver5, hc] at hseq
      simpa [LoggingOperator.default_format_value, hlen, pyStr]
        using truncate_tail_spec (pyStr (PyVal.vTuple xs))
    | vInt n =>
      simpa [LoggingOperator.default_format_value, pyStr]
        using truncate_tail_spec (pyStr (PyVal.vInt n))
    | vStr s =>
      simpa [LoggingOperator.default_format_value, pyStr]
        using truncate_tail_spec (pyStr (PyVal.vStr s))
    | vNone =>
      simpa [LoggingOperator.default_format_value, pyStr]
        using truncate_tail_spec (pyStr PyVal.vNone)
  · rintro es rfl h
    refine ⟨by simp [LoggingOperator.default_format_value, h], ?_⟩
    rw [PyPairList.take_length]
    omega
  · rintro xs rfl h
    refine ⟨by simp [LoggingOperator.default_format_value, h], ?_⟩
    rw [PyValList.take_len]
    omega
  · rintro xs rfl h
    refine ⟨by simp [LoggingOperator.default_format_value, h], ?_⟩
    rw [PyValList.take_len]
    omega

set_option maxRecDepth 20000 in
/-- Witness for C7 (amended): a 150-character string value is neither a
mapping nor a long sequence, its `str` exceeds 100 characters, and the
formatter returns exactly 100 characters ending in `...`. -/
theorem c7_witness :
    (LoggingOperator.default_format_value
      (PyVal.vStr (List.replicate 150 'a'))).length = 100 ∧
    (LoggingOperator.default_format_value
      (PyVal.vStr (List.replicate 150 'a'))).drop 97 = ("...").toList :=
  ((c7_default_formatter (PyVal.vStr (List.replicate 150 'a'))).1
    (by decide) (by decide)).2 (by decide)

/-- Full characterisation of a `ConditionalLogger` subscription over a
finite value sequence followed by completion, from an arbitrary initial
counter state: final counters, downstream deliveries, nothing raised,
and (when summarising and at least one value was counted) the final log
record is the completion summary carrying the final counters and their
exact ratio. -/
theorem cond_run_spec (op : ConditionalLogger) (vals : List PyVal)
    (s : CondState) :
    (op.run s (vals.map Event.next ++ [Event.completed])).st =
      CondState.mk (s.total_count + vals.length)
        (s.logged_count + vals.countP op.should_log) ∧
    (op.run s (vals.map Event.next ++ [Event.completed])).down =
      vals.map Event.next ++ [Event.completed] ∧
    (op.run s (vals.map Event.next ++ [Event.completed])).raised = none ∧
    (op.summarize = true → 0 < s.total_count + vals.length →
      (op.run s (vals.map Event.next ++ [Event.completed])).logs.getLast? =
        some (CondLog.summary
          (s.logged_count + vals.countP op.should_log)
          (s.total_count + vals.length)
          (((s.logged_count + vals.countP op.should_log : Nat) : ℚ) /
            ((s.total_count + vals.length : Nat) : ℚ)))) := by
  induction vals generalizing s with
  | nil =>
    refine ⟨?_, ?_, ?_, ?_⟩
    · simp [ConditionalLogger.run, runEvents, ConditionalLogger.on_completed]
    · by_cases h : op.summarize ∧ 0 < s.total_count <;>
        simp [ConditionalLogger.run, runEvents, ConditionalLogger.on_completed, h]
    · by_cases h : op.summarize ∧ 0 < s.total_count <;>
        simp [ConditionalLogger.run, runEvents, ConditionalLogger.on_completed, h]
    · intro hs ht
      simp at ht
      simp [ConditionalLogger.run, runEvents, ConditionalLogger.on_completed,
        hs, ht]
  | cons v vals ih =>
    have hraised : ∀ u : CondState, (op.on_next true u v).raised = none := by
      intro u
      by_cases h : op.should_log v <;> simp [ConditionalLogger.on_next, h]
    have hdown : ∀ u : CondState, (op.on_next true u v).down = [Event.next v] := by
      intro u
      by_cases h : op.should_log v <;> simp [ConditionalLogger.on_next, h]
    have hcons : op.run s ((v :: vals).map Event.next ++ [Event.completed]) =
        ⟨(op.run (op.on_next true s v).st
            (vals.map Event.next ++ [Event.completed])).st,
          (op.on_next true s v).logs ++
            (op.run (op.on_next true s v).st
              (vals.map Event.next ++ [Event.completed])).logs,
          (op.on_next true s v).down ++
            (op.run (op.on_next true s v).st
              (vals.map Event.next ++ [Event.completed])).down,
          (op.run (op.on_next true s v).st
            (vals.map Event.next ++ [Event.completed])).raised⟩ := by
      show op.run s (Event.next v :: (vals.map Event.next ++ [Event.completed])) = _
      simp only [ConditionalLogger.run]
      exact runEvents_cons_next (op.on_next true) (op.on_error true)
        (op.on_completed true) s v _ (hraised s)
    have hst : (op.on_next true s v).st =
        CondState.mk (s.total_count + 1)
          (s.logged_count + if op.should_log v then 1 else 0) := by
      by_cases h : op.should_log v <;> simp [ConditionalLogger.on_next, h]
    obtain ⟨ih1, ih2, ih3, ih4⟩ := ih (op.on_next true s v).st
    refine ⟨?_, ?_, ?_, ?_⟩
    · rw [hcons]
      show (op.run (op.on_next true s v).st
        (vals.map Event.next ++ [Event.completed])).st = _
      rw [ih1, hst]
      have h1 : s.total_count + 1 + vals.length =
          s.total_count + (v :: vals).length := by simp; omega
      have h2 : s.logged_count + (if op.should_log v then 1 else 0) +
          vals.countP op.should_log =
          s.logged_count + (v :: vals).countP op.should_log := by
        rw [List.countP_cons]
        omega
      simp only [CondState.mk.injEq]
      constructor <;> omega
    · rw [hcons]
      show (op.on_next true s v).down ++ _ = _
      rw [hdown s, ih2]
      simp
    · rw [hcons]
      exact ih3
    · intro hs ht
      rw [hcons]
      show ((op.on_next true s v).logs ++
        (op.run (op.on_next true s v).st
          (vals.map Event.next ++ [Event.completed])).logs).getLast? = _
      have hcond : 0 < (op.on_next true s v).st.total_count + vals.length := by
        rw [hst]; simp
      have h4 := ih4 hs hcond
      rw [List.getLast?_append, h4]
      simp only [Option.or]
      rw [hst]
      have h1 : s.total_count + 1 + vals.length =
          s.total_count + (v :: vals).length := by simp; omega
      have h2 : s.logged_count + (if op.should_log v then 1 else 0) +
          vals.countP op.should_log =
          s.logged_count + (v :: vals).countP op.should_log := by
        rw [List.countP_cons]
        omega
      simp only []
      rw [h1, h2]

/-- C8: for `ConditionalLogger` over any finite input sequence followed
by completion, the logged count equals the number of input elements on
which the value predicate returns true (all of them when the predicate
is absent, per `should_log`), every value is forwarded downstream
whether or not it was logged (and completion is forwarded), and when
summaries are enabled and at least one value was seen the completion
summary is the last log record and reports logged count, total count
and the exact ratio logged/total. -/
theorem c8_conditional_logger_counts (op : ConditionalLogger)
    (vals : List PyVal) :
    (op.run ⟨0, 0⟩ (vals.map Event.next ++ [Event.completed])).st.logged_count =
      vals.countP op.should_log ∧
    (op.run ⟨0, 0⟩ (vals.map Event.next ++ [Event.completed])).st.total_count =
      vals.length ∧
    (op.run ⟨0, 0⟩ (vals.map Event.next ++ [Event.completed])).down =
      vals.map Event.next ++ [Event.completed] ∧
    (op.summarize = true → vals ≠ [] →
      (op.run ⟨0, 0⟩ (vals.map Event.next ++ [Event.completed])).logs.getLast? =
        some (CondLog.summary (vals.countP op.should_log) vals.length
          ((vals.countP op.should_log : Nat) / (vals.length : Nat) : ℚ))) := by
  obtain ⟨h1, h2, h3, h4⟩ := cond_run_spec op vals ⟨0, 0⟩
  refine ⟨?_, ?_, h2, ?_⟩
  · rw [h1]; simp
  · rw [h1]; simp
  · intro hs hv
    have hlen : 0 < vals.length := List.length_pos.mpr hv
    have := h4 hs (by simpa using hlen)
    simpa using this

/-- Witness for C8: the predicate `value > 2` over the inputs
`[1, 5, 3]` with summaries enabled: counts, forwarding and the final
summary as stated. -/
theorem c8_witness :
    ((ConditionalLogger.mk ("d").toList
      (some (fun v => match v with
        | PyVal.vInt n => if 2 < n then true else false
        | _ => false)) none ("info").toList true).run ⟨0, 0⟩
      ([PyVal.vInt 1, PyVal.vInt 5, PyVal.vInt 3].map Event.next ++
        [Event.completed])).st.logged_count =
      [PyVal.vInt 1, PyVal.vInt 5, PyVal.vInt 3].countP
        (ConditionalLogger.mk ("d").toList
          (some (fun v => match v with
            | PyVal.vInt n => if 2 < n then true else false
            | _ => false)) none ("info").toList true).should_log ∧
    ((ConditionalLogger.mk ("d").toList
      (some (fun v => match v with
        | PyVal.vInt n => if 2 < n then true else false
        | _ => false)) none ("info").toList true).run ⟨0, 0⟩
      ([PyVal.vInt 1, PyVal.vInt 5, PyVal.vInt 3].map Event.next ++
        [Event.completed])).st.total_count =
      [PyVal.vInt 1, PyVal.vInt 5, PyVal.vInt 3].length ∧
    ((ConditionalLogger.mk ("d").toList
      (some (fun v => match v with
        | PyVal.vInt n => if 2 < n then true else false
        | _ => false)) none ("info").toList true).run ⟨0, 0⟩
      ([PyVal.vInt 1, PyVal.vInt 5, PyVal.vInt 3].map Event.next ++
        [Event.completed])).down =
      [PyVal.vInt 1, PyVal.vInt 5, PyVal.vInt 3].map Event.next ++
        [Event.completed] ∧
    ((ConditionalLogger.mk ("d").toList
      (some (fun v => match v with
        | PyVal.vInt n => if 2 < n then true else false
        | _ => false)) none ("info").toList true).run ⟨0, 0⟩
      ([PyVal.vInt 1, PyVal.vInt 5, PyVal.vInt 3].map Event.next ++
        [Event.completed])).logs.getLast? =
      some (CondLog.summary
        ([PyVal.vInt 1, PyVal.vInt 5, PyVal.vInt 3].countP
          (ConditionalLogger.mk ("d").toList
            (some (fun v => match v with
              | PyVal.vInt n => if 2 < n then true else false
              | _ => false)) none ("info").toList true).should_log)
        [PyVal.vInt 1, PyVal.vInt 5, PyVal.vInt 3].length
        (([PyVal.vInt 1, PyVal.vInt 5, PyVal.vInt 3].countP
          (ConditionalLogger.mk ("d").toList
            (some (fun v => match v with
              | PyVal.vInt n => if 2 < n then true else false
              | _ => false)) none ("info").toList true).should_log : Nat) /
          ([PyVal.vInt 1, PyVal.vInt 5, PyVal.vInt 3].length : Nat) : ℚ)) := by
  obtain ⟨h1, h2, h3, h4⟩ := c8_conditional_logger_counts
    (ConditionalLogger.mk ("d").toList
      (some (fun v => match v with
        | PyVal.vInt n => if 2 < n then true else false
        | _ => false)) none ("info").toList true)
    [PyVal.vInt 1, PyVal.vInt 5, PyVal.vInt 3]
  exact ⟨h1, h2, h3, h4 rfl (by simp)⟩

/-- C9 counterexample: a `PerformanceLogger` subscription that sees two
values (at times 10 and 20) and then completion (at 25) forwards the
terminal notification, yet its final state still holds
`start_time = 10`, `last_time = 20`, one recorded interval and
`count = 2` - not the initial values.  `PerformanceLogger` overrides
both terminal handlers of `StatefulOperator` without calling
`reset_state`, so forwarding a terminal does NOT reset its
accumulators. -/
theorem c9_counterexample :
    ((PerformanceLogger.mk ("p").toList none).runT PerfState.initial
      [(Event.next (PyVal.vInt 1), 10), (Event.next (PyVal.vInt 2), 20),
        (Event.completed, 25)]).down =
      [Event.next (PyVal.vInt 1), Event.next (PyVal.vInt 2),
        Event.completed] ∧
    ((PerformanceLogger.mk ("p").toList none).runT PerfState.initial
      [(Event.next (PyVal.vInt 1), 10), (Event.next (PyVal.vInt 2), 20),
        (Event.completed, 25)]).st = PerfState.mk (some 10) (some 20) [10] 2 ∧
    ¬ ((PerformanceLogger.mk ("p").toList none).runT PerfState.initial
      [(Event.next (PyVal.vInt 1), 10), (Event.next (PyVal.vInt 2), 20),
        (Event.completed, 25)]).st = PerfState.initial := by
  refine ⟨rfl, by decide, by decide⟩

/-- C9 (amended): `StatefulOperator`'s inherited terminal handlers
forward the terminal notification and then automatically invoke
`reset_state`; and `PerformanceLogger.reset_state`, when invoked,
returns every accumulator to its initial value (start and last
timestamps cleared, interval list empty, counter zero).  However
`PerformanceLogger` overrides both terminal handlers and neither
invokes `reset_state`: its state is unchanged by `on_error` and
`on_completed`. -/
theorem c9_reset_state_on_terminal (σ2 β2 ε2 : Type) (reset : σ2 → σ2)
    (obs : Bool) (s : σ2) (e : ε2) (op : PerformanceLogger) (now : Int)
    (sP : PerfState) (e2 : PyErr) :
    (StatefulOperator.on_completed reset obs s : HRes σ2 Empty β2 ε2).st =
      reset s ∧
    (StatefulOperator.on_error reset obs s e : HRes σ2 Empty β2 ε2).st =
      reset s ∧
    (StatefulOperator.on_completed reset true s : HRes σ2 Empty β2 ε2).down =
      [Event.completed] ∧
    (StatefulOperator.on_error reset true s e : HRes σ2 Empty β2 ε2).down =
      [Event.error e] ∧
    PerformanceLogger.reset_state sP = PerfState.initial ∧
    PerfState.initial.start_time = none ∧
    PerfState.initial.last_time = none ∧
    PerfState.initial.item_times = [] ∧
    PerfState.initial.count = 0 ∧
    (op.on_completed true now sP).st = sP ∧
    (op.on_error true now sP e2).st = sP := by
  refine ⟨rfl, rfl, by simp [StatefulOperator.on_completed],
    by simp [StatefulOperator.on_error], rfl, rfl, rfl, rfl, rfl,
    by simp [PerformanceLogger.on_completed],
    by simp [PerformanceLogger.on_error]⟩

/-- C10: with no downstream observer bound (`self.observer is None`),
`BaseOperator`'s default `on_error`/`on_completed` and the `on_next` of
`SimpleOperator` and `FilteringOperator` silently drop the notification
- nothing is delivered and nothing is raised, whatever the outcome of
the transform or predicate - whereas every handler of each of the six
concrete logging operators dereferences the unbound observer and
terminates with an `AttributeError` (delivering nothing downstream).
`LoggingOperator` is taken with a non-raising formatter (a raising
formatter would abort `on_next` even earlier). -/
theorem c10_unbound_observer (f : PyVal → Except PyErr PyVal)
    (p : PyVal → Except PyErr Bool) (v : PyVal) (e : PyErr)
    (pfx lvl : List Char) (lv le lc : Bool) (fmt : PyVal → List Char)
    (opM : MarbleLogger) (opC : ContextualLogger) (opR : RichLoggerOperator)
    (opP : PerformanceLogger) (opD : ConditionalLogger)
    (sL : Nat) (sM : List MEntry) (sC : Nat) (sR : Nat)
    (sP : PerfState) (sD : CondState) (now : Int) :
    ((BaseOperator.on_error false e : HRes Unit Empty PyVal PyErr).down = [] ∧
      (BaseOperator.on_error false e : HRes Unit Empty PyVal PyErr).raised =
        none) ∧
    ((BaseOperator.on_completed false : HRes Unit Empty PyVal PyErr).down = [] ∧
      (BaseOperator.on_completed false : HRes Unit Empty PyVal PyErr).raised =
        none) ∧
    ((SimpleOperator.on_next f false v).down = [] ∧
      (SimpleOperator.on_next f false v).raised = none) ∧
    ((FilteringOperator.on_next p false v).down = [] ∧
      (FilteringOperator.on_next p false v).raised = none) ∧
    (((LoggingOperator.mk pfx lv le lc lvl
        (fun u => Except.ok (fmt u))).on_next false sL v).down = [] ∧
      ((LoggingOperator.mk pfx lv le lc lvl
        (fun u => Except.ok (fmt u))).on_next false sL v).raised =
        some PyExc.attrError) ∧
    (((LoggingOperator.mk pfx lv le lc lvl
        (fun u => Except.ok (fmt u))).on_error false sL e).down = [] ∧
      ((LoggingOperator.mk pfx lv le lc lvl
        (fun u => Except.ok (fmt u))).on_error false sL e).raised =
        some PyExc.attrError) ∧
    (((LoggingOperator.mk pfx lv le lc lvl
        (fun u => Except.ok (fmt u))).on_completed false sL).down = [] ∧
      ((LoggingOperator.mk pfx lv le lc lvl
        (fun u => Except.ok (fmt u))).on_completed false sL).raised =
        some PyExc.attrError) ∧
    ((opM.on_next false sM v).raised = some PyExc.attrError ∧
      (opM.on_next false sM v).down = [] ∧
      (opM.on_error false sM e).raised = some PyExc.attrError ∧
      (opM.on_error false sM e).down = [] ∧
      (opM.on_completed false sM).raised = some PyExc.attrError ∧
      (opM.on_completed false sM).down = []) ∧
    ((opC.on_next false sC v).raised = some PyExc.attrError ∧
      (opC.on_next false sC v).down = [] ∧
      (opC.on_error false sC e).raised = some PyExc.attrError ∧
      (opC.on_error false sC e).down = [] ∧
      (opC.on_completed false sC).raised = some PyExc.attrError ∧
      (opC.on_completed false sC).down = []) ∧
    ((opR.on_next false sR v).raised = some PyExc.attrError ∧
      (opR.on_next false sR v).down = [] ∧
      (opR.on_error false sR e).raised = some PyExc.attrError ∧
      (opR.on_error false sR e).down = [] ∧
      (opR.on_completed false sR).raised = some PyExc.attrError ∧
      (opR.on_completed false sR).down = []) ∧
    ((opP.on_next false now sP v).raised = some PyExc.attrError ∧
      (opP.on_next false now sP v).down = [] ∧
      (opP.on_error false now sP e).raised = some PyExc.attrError ∧
      (opP.on_error false now sP e).down = [] ∧
      (opP.on_completed false now sP).raised = some PyExc.attrError ∧
      (opP.on_completed false now sP).down = []) ∧
    ((opD.on_next false sD v).raised = some PyExc.attrError ∧
      (opD.on_next false sD v).down = [] ∧
      (opD.on_error false sD e).raised = some PyExc.attrError ∧
      (opD.on_error false sD e).down = [] ∧
      (opD.on_completed false sD).raised = some PyExc.attrError ∧
      (opD.on_completed false sD).down = []) := by
  refine ⟨?_, ?_, ?_, ?_, ?_, ?_, ?_, ?_, ?_, ?_, ?_, ?_⟩
  · simp [BaseOperator.on_error]
  · simp [BaseOperator.on_completed]
  · cases h : f v <;> simp [SimpleOperator.on_next, h]
  · cases h : p v <;> simp [FilteringOperator.on_next, h]
  · cases hlv : lv <;> simp [LoggingOperator.on_next, hlv]
  · cases hle : le <;> simp [LoggingOperator.on_error, hle]
  · cases hlc : lc <;> simp [LoggingOperator.on_completed, hlc]
  · simp [MarbleLogger.on_next, MarbleLogger.on_error, MarbleLogger.on_completed]
  · simp [ContextualLogger.on_next, ContextualLogger.on_error,
      ContextualLogger.on_completed]
  · simp [RichLoggerOperator.on_next, RichLoggerOperator.on_error,
      RichLoggerOperator.on_completed]
  · simp [PerformanceLogger.on_next, PerformanceLogger.on_error,
      PerformanceLogger.on_completed]
  · refine ⟨?_, ?_, ?_, ?_, ?_, ?_⟩ <;>
      [skip; skip;
        cases h : opD.error_predicate;
        cases h : opD.error_predicate;
        by_cases h : opD.summarize ∧ 0 < sD.total_count;
        by_cases h : opD.summarize ∧ 0 < sD.total_count] <;>
      first
        | (by_cases h : opD.should_log v <;>
            simp [ConditionalLogger.on_next, h])
        | simp [ConditionalLogger.on_error, h]
        | simp [ConditionalLogger.on_completed, h]
